import Mathlib

/-!
Verification development for the ADK ↔ A2A protocol bridge.

The definitions below are a shallow embedding of the bridge sources:
  - adka2a/parts.go              (part codec)
  - adka2a event translation     (ToSessionEvent, messageToEvent, EventToMessage, metadata)
  - agent/remoteagent/utils.go   (session-history diff, continuation check)
  - agent/remoteagent/a2a_agent.go (client-role driver, agent-card resolution)
  - server/adka2a/processor.go   (server-role event processor)
  - server/adka2a/executor.go    (server-role executor)
  - server/adka2a/metadata.go    (invocation/event metadata)

Go maps with `any` values are embedded as association lists over a JSON-like
value type `JVal`; Go machine bytes are `Nat` values below 256; Go `nil`
pointers become `Option.none`; fallible Go functions return `Except`.
-/

/-- JSON-compatible values, the embedding of Go `any` values stored inside
`map[string]any`.  The `unsupported` constructor stands for Go values that
`encoding/json` cannot marshal (channels, functions, NaN floats, ...). -/
inductive JVal where
  | null
  | boolean (b : Bool)
  | num (n : Int)
  | str (s : String)
  | arr (elems : List JVal)
  | obj (fields : List (String × JVal))
  | unsupported (tag : String)
deriving Repr

mutual

/-- Boolean equality on `JVal`. -/
def JVal.beq : JVal → JVal → Bool
  | .null, .null => true
  | .boolean a, .boolean b => a == b
  | .num a, .num b => a == b
  | .str a, .str b => a == b
  | .arr a, .arr b => beqJList a b
  | .obj a, .obj b => beqJFields a b
  | .unsupported a, .unsupported b => a == b
  | _, _ => false

/-- Boolean equality on lists of `JVal`. -/
def beqJList : List JVal → List JVal → Bool
  | [], [] => true
  | a :: as, b :: bs => a.beq b && beqJList as bs
  | _, _ => false

/-- Boolean equality on JSON object fields. -/
def beqJFields : List (String × JVal) → List (String × JVal) → Bool
  | [], [] => true
  | (k1, v1) :: as, (k2, v2) :: bs => k1 == k2 && v1.beq v2 && beqJFields as bs
  | _, _ => false

end

mutual

theorem JVal.beq_iff : ∀ a b : JVal, a.beq b = true ↔ a = b
  | .null, b => by cases b <;> simp [JVal.beq]
  | .boolean a, b => by cases b <;> simp [JVal.beq]
  | .num a, b => by cases b <;> simp [JVal.beq]
  | .str a, b => by cases b <;> simp [JVal.beq]
  | .arr a, b => by
      cases b <;> simp [JVal.beq]
      exact beqJList_iff a _
  | .obj a, b => by
      cases b <;> simp [JVal.beq]
      exact beqJFields_iff a _
  | .unsupported a, b => by cases b <;> simp [JVal.beq]

theorem beqJList_iff : ∀ a b : List JVal, beqJList a b = true ↔ a = b
  | [], b => by cases b <;> simp [beqJList]
  | a :: as, [] => by simp [beqJList]
  | a :: as, b :: bs => by
      simp [beqJList, JVal.beq_iff a b, beqJList_iff as bs]

theorem beqJFields_iff : ∀ a b : List (String × JVal), beqJFields a b = true ↔ a = b
  | [], b => by cases b <;> simp [beqJFields]
  | a :: as, [] => by simp [beqJFields]
  | (k1, v1) :: as, (k2, v2) :: bs => by
      simp [beqJFields, JVal.beq_iff v1 v2, beqJFields_iff as bs, and_assoc]

end

instance : DecidableEq JVal := fun a b =>
  decidable_of_iff (JVal.beq a b = true) (JVal.beq_iff a b)

mutual

/-- Whether `encoding/json` can marshal the value (deep check). -/
def JVal.marshalable : JVal → Bool
  | .null => true
  | .boolean _ => true
  | .num _ => true
  | .str _ => true
  | .arr es => marshalableJList es
  | .obj fs => marshalableJFields fs
  | .unsupported _ => false

/-- `JVal.marshalable` over a JSON array. -/
def marshalableJList : List JVal → Bool
  | [] => true
  | v :: rest => v.marshalable && marshalableJList rest

/-- `JVal.marshalable` over JSON object fields. -/
def marshalableJFields : List (String × JVal) → Bool
  | [] => true
  | kv :: rest => kv.2.marshalable && marshalableJFields rest

end

/-- Lookup in an association list, the embedding of Go map indexing
(`m[k]`); a `nil` Go map is embedded as `[]`. -/
def mapLookup : List (String × JVal) → String → Option JVal
  | [], _ => none
  | (k, v) :: rest, key => if k = key then some v else mapLookup rest key

/-- Insertion sort of JSON object fields by key, modelling the sorted key
order `encoding/json` uses when marshalling a Go map. -/
def insertField (kv : String × JVal) : List (String × JVal) → List (String × JVal)
  | [] => [kv]
  | hd :: tl => if kv.1 ≤ hd.1 then kv :: hd :: tl else hd :: insertField kv tl

/-- Sort JSON object fields by key. -/
def sortFields : List (String × JVal) → List (String × JVal)
  | [] => []
  | kv :: rest => insertField kv (sortFields rest)

/-- Minimal JSON string escaping (quote and backslash), enough to model the
canonical form `encoding/json` produces on the values the bridge handles. -/
def escapeJSON (s : String) : String :=
  String.mk (s.toList.flatMap fun c =>
    if c = '"' then ['\\', '"'] else if c = '\\' then ['\\', '\\'] else [c])

mutual

/-- Recursively sort all object fields by key, modelling the key order
`encoding/json` and `fmt` use when printing Go maps. -/
def JVal.deepSort : JVal → JVal
  | .null => .null
  | .boolean b => .boolean b
  | .num n => .num n
  | .str s => .str s
  | .arr es => .arr (deepSortJList es)
  | .obj fs => .obj (sortFields (deepSortJFields fs))
  | .unsupported tag => .unsupported tag

/-- `JVal.deepSort` over a JSON array. -/
def deepSortJList : List JVal → List JVal
  | [] => []
  | v :: rest => v.deepSort :: deepSortJList rest

/-- `JVal.deepSort` over JSON object fields. -/
def deepSortJFields : List (String × JVal) → List (String × JVal)
  | [] => []
  | (k, v) :: rest => (k, v.deepSort) :: deepSortJFields rest

end

mutual

/-- Canonical JSON rendering of a value with fields already sorted; the
embedding of `string(json.Marshal(v))` is `JVal.marshalString` below. -/
def JVal.render : JVal → String
  | .null => "null"
  | .boolean b => if b then "true" else "false"
  | .num n => toString n
  | .str s => "\"" ++ escapeJSON s ++ "\""
  | .arr es => "[" ++ renderJList es ++ "]"
  | .obj fs => "\x7b" ++ renderJFields fs ++ "\x7d"
  | .unsupported _ => ""

/-- Comma-joined rendering of array elements. -/
def renderJList : List JVal → String
  | [] => ""
  | [v] => v.render
  | v :: rest => v.render ++ "," ++ renderJList rest

/-- Comma-joined rendering of object fields. -/
def renderJFields : List (String × JVal) → String
  | [] => ""
  | [(k, v)] => "\"" ++ escapeJSON k ++ "\":" ++ v.render
  | (k, v) :: rest => "\"" ++ escapeJSON k ++ "\":" ++ v.render ++ "," ++ renderJFields rest

end

/-- Embedding of `string(json.Marshal(v))` for marshalable `v`: canonical
JSON with object keys sorted at every level. -/
def JVal.marshalString (v : JVal) : String := v.deepSort.render

mutual

/-- `%v` rendering of a value with fields already sorted; the embedding of
Go `fmt.Sprintf("%v", v)` is `JVal.goFormat` below. -/
def JVal.goFormatSorted : JVal → String
  | .null => "<nil>"
  | .boolean b => if b then "true" else "false"
  | .num n => toString n
  | .str s => s
  | .arr es => "[" ++ goFormatJList es ++ "]"
  | .obj fs => "map[" ++ goFormatJFields fs ++ "]"
  | .unsupported tag => tag

/-- Space-joined `%v` rendering of slice elements. -/
def goFormatJList : List JVal → String
  | [] => ""
  | [v] => v.goFormatSorted
  | v :: rest => v.goFormatSorted ++ " " ++ goFormatJList rest

/-- Space-joined `%v` rendering of map entries. -/
def goFormatJFields : List (String × JVal) → String
  | [] => ""
  | [(k, v)] => k ++ ":" ++ v.goFormatSorted
  | (k, v) :: rest => k ++ ":" ++ v.goFormatSorted ++ " " ++ goFormatJFields rest

end

/-- Embedding of Go `fmt.Sprintf("%v", v)` (maps print as
`map[k1:v1 k2:v2]` with keys sorted at every level). -/
def JVal.goFormat (v : JVal) : String := v.deepSort.goFormatSorted

/-! ## Base64 (encoding/base64 StdEncoding)

`adka2a/parts.go` stores inline file bytes on the wire as
`base64.StdEncoding.EncodeToString` output and reads them back with
`base64.StdEncoding.DecodeString`.  Bytes are `Nat` values below 256. -/

/-- The standard base64 alphabet. -/
def b64Alphabet : List Char :=
  ['A', 'B', 'C', 'D', 'E', 'F', 'G', 'H', 'I', 'J', 'K', 'L', 'M',
   'N', 'O', 'P', 'Q', 'R', 'S', 'T', 'U', 'V', 'W', 'X', 'Y', 'Z',
   'a', 'b', 'c', 'd', 'e', 'f', 'g', 'h', 'i', 'j', 'k', 'l', 'm',
   'n', 'o', 'p', 'q', 'r', 's', 't', 'u', 'v', 'w', 'x', 'y', 'z',
   '0', '1', '2', '3', '4', '5', '6', '7', '8', '9', '+', '/']

/-- Character for a six-bit group. -/
def sextetChar (n : Nat) : Char := b64Alphabet.getD n 'A'

/-- Six-bit value of an alphabet character (`none` for characters outside
the alphabet, in particular for `=`). -/
def sextetVal (c : Char) : Option Nat := b64Alphabet.findIdx? (· = c)

/-- `base64.StdEncoding.EncodeToString`: encode bytes in three-byte groups,
padding the final group with `=`. -/
def b64Encode : List Nat → List Char
  | [] => []
  | [a] => [sextetChar (a / 4), sextetChar (a % 4 * 16), '=', '=']
  | [a, b] => [sextetChar (a / 4), sextetChar (a % 4 * 16 + b / 16), sextetChar (b % 16 * 4), '=']
  | a :: b :: c :: rest =>
      sextetChar (a / 4) :: sextetChar (a % 4 * 16 + b / 16) ::
      sextetChar (b % 16 * 4 + c / 64) :: sextetChar (c % 64) :: b64Encode rest

/-- `base64.StdEncoding.DecodeString`: decode four-character groups,
accepting `=` padding only at the end of the input. -/
def b64Decode : List Char → Option (List Nat)
  | [] => some []
  | c0 :: c1 :: c2 :: c3 :: rest =>
      match sextetVal c0, sextetVal c1 with
      | some s0, some s1 =>
          if c2 = '=' then
            if c3 = '=' then
              if rest = [] then some [s0 * 4 + s1 / 16] else none
            else none
          else
            match sextetVal c2 with
            | some s2 =>
                if c3 = '=' then
                  if rest = [] then some [s0 * 4 + s1 / 16, s1 % 16 * 16 + s2 / 4] else none
                else
                  match sextetVal c3 with
                  | some s3 =>
                      (b64Decode rest).map fun bs =>
                        (s0 * 4 + s1 / 16) :: (s1 % 16 * 16 + s2 / 4) :: (s2 % 4 * 64 + s3) :: bs
                  | none => none
            | none => none
      | _, _ => none
  | _ => none

theorem sextet_roundtrip : ∀ n < 64, sextetVal (sextetChar n) = some n := by decide

theorem sextetChar_ne_pad : ∀ n < 64, sextetChar n ≠ '=' := by decide

theorem b64_roundtrip : ∀ bs : List Nat, (∀ b ∈ bs, b < 256) →
    b64Decode (b64Encode bs) = some bs
  | [], _ => by simp [b64Encode, b64Decode]
  | [a], h => by
      have ha : a < 256 := h a (by simp)
      have h0 : a / 4 < 64 := by omega
      have h1 : a % 4 * 16 < 64 := by omega
      simp only [b64Encode, b64Decode, sextet_roundtrip _ h0, sextet_roundtrip _ h1,
        sextetChar_ne_pad _ h1, if_true, reduceIte, Option.some.injEq, List.cons.injEq,
        and_true]
      omega
  | [a, b], h => by
      have ha : a < 256 := h a (by simp)
      have hb : b < 256 := h b (by simp)
      have h0 : a / 4 < 64 := by omega
      have h1 : a % 4 * 16 + b / 16 < 64 := by omega
      have h2 : b % 16 * 4 < 64 := by omega
      simp only [b64Encode, b64Decode, sextet_roundtrip _ h0, sextet_roundtrip _ h1,
        sextet_roundtrip _ h2, sextetChar_ne_pad _ h1, sextetChar_ne_pad _ h2,
        if_true, if_false, reduceIte, Option.some.injEq, List.cons.injEq, and_true]
      exact ⟨by omega, by omega⟩
  | a :: b :: c :: rest, h => by
      have ha : a < 256 := h a (by simp)
      have hb : b < 256 := h b (by simp)
      have hc : c < 256 := h c (by simp)
      have h0 : a / 4 < 64 := by omega
      have h1 : a % 4 * 16 + b / 16 < 64 := by omega
      have h2 : b % 16 * 4 + c / 64 < 64 := by omega
      have h3 : c % 64 < 64 := by omega
      have ih := b64_roundtrip rest (fun x hx => h x (by simp [hx]))
      simp only [b64Encode, b64Decode, sextet_roundtrip _ h0, sextet_roundtrip _ h1,
        sextet_roundtrip _ h2, sextet_roundtrip _ h3, sextetChar_ne_pad _ h1,
        sextetChar_ne_pad _ h2, sextetChar_ne_pad _ h3, if_false, reduceIte, ih,
        Option.map_some', Option.some.injEq, List.cons.injEq, eq_self_iff_true, and_true]
      exact ⟨by omega, by omega, by omega⟩

/-! ## genai content parts (the internal representation)

`genai.Part` is a struct whose pointer fields select the part kind; the
embedding keeps the struct-of-optionals shape because the Go code
dispatches on which field is set (and reads `Thought` independently). -/

/-- `genai.Blob` (inline file bytes). -/
structure Blob where
  data : List Nat := []
  mimeType : String := ""
  displayName : String := ""
deriving Repr, DecidableEq

/-- `genai.FileData` (URI file reference). -/
structure FileData where
  fileURI : String := ""
  mimeType : String := ""
  displayName : String := ""
deriving Repr, DecidableEq

/-- `genai.FunctionCall`; `Args` (a `map[string]any`) is embedded as JSON
object fields. -/
structure FunctionCall where
  id : String := ""
  args : List (String × JVal) := []
  name : String := ""
deriving Repr, DecidableEq

/-- `genai.FunctionResponse`. -/
structure FunctionResponse where
  id : String := ""
  name : String := ""
  response : List (String × JVal) := []
  scheduling : String := ""
deriving Repr, DecidableEq

/-- `genai.ExecutableCode`. -/
structure ExecutableCode where
  code : String := ""
  language : String := ""
deriving Repr, DecidableEq

/-- `genai.CodeExecutionResult`. -/
structure CodeExecutionResult where
  outcome : String := ""
  output : String := ""
deriving Repr, DecidableEq

/-- `genai.Part`. -/
structure GenAIPart where
  text : String := ""
  thought : Bool := false
  inlineData : Option Blob := none
  fileData : Option FileData := none
  functionCall : Option FunctionCall := none
  functionResponse : Option FunctionResponse := none
  executableCode : Option ExecutableCode := none
  codeExecutionResult : Option CodeExecutionResult := none
  videoMetadata : Option (List (String × JVal)) := none
deriving Repr, DecidableEq

/-- `genai.NewPartFromText`. -/
def newPartFromText (t : String) : GenAIPart := { text := t }

/-- `genai.Content`: a role plus ordered parts. -/
structure Content where
  role : String := ""
  parts : List GenAIPart := []
deriving Repr, DecidableEq

/-- `genai.NewContentFromParts`. -/
def newContentFromParts (parts : List GenAIPart) (role : String) : Content :=
  { role := role, parts := parts }

/-! ## A2A wire parts -/

/-- `a2a.FileBytes` / `a2a.FileURI` (the two `a2a.FilePart` contents);
file bytes travel base64-encoded. -/
inductive A2AFile where
  | bytes (bytes : List Char) (mimeType : String) (name : String)
  | uri (uri : String) (mimeType : String) (name : String)
deriving Repr, DecidableEq

/-- `a2a.Part`: TextPart, FilePart or DataPart, each with optional
metadata (a `nil` Go metadata map is embedded as `[]`). -/
inductive A2APart where
  | text (text : String) (metadata : List (String × JVal))
  | file (file : A2AFile) (metadata : List (String × JVal))
  | data (data : List (String × JVal)) (metadata : List (String × JVal))
deriving Repr, DecidableEq

/-! ## Part codec (adka2a/parts.go) -/

/-- `ToA2AMetaKey` / `toMetaKey` from the adka2a packages. -/
def toMetaKey (key : String) : String := "adk_" ++ key

/-- `a2aDataPartMetaTypeKey`. -/
def a2aDataPartMetaTypeKey : String := toMetaKey "type"

/-- `a2aDataPartMetaLongRunningKey`. -/
def a2aDataPartMetaLongRunningKey : String := toMetaKey "is_long_running"

/-- `a2aDataPartTypeFunctionCall`. -/
def a2aDataPartTypeFunctionCall : String := "function_call"

/-- `a2aDataPartTypeFunctionResponse`. -/
def a2aDataPartTypeFunctionResponse : String := "function_response"

/-- `a2aDataPartTypeCodeExecResult`. -/
def a2aDataPartTypeCodeExecResult : String := "code_execution_result"

/-- `a2aDataPartTypeCodeExecutableCode`. -/
def a2aDataPartTypeCodeExecutableCode : String := "executable_code"

/-- Build JSON object fields, omitting `none` entries: the effect of
`json:"...,omitempty"` tags under `toMapStructure`. -/
def omitFields : List (String × Option JVal) → List (String × JVal)
  | [] => []
  | (_, none) :: rest => omitFields rest
  | (k, some v) :: rest => (k, v) :: omitFields rest

/-- An omitempty string field: dropped when empty. -/
def strField (s : String) : Option JVal := if s = "" then none else some (.str s)

/-- An omitempty map field: dropped when empty. -/
def objField (fs : List (String × JVal)) : Option JVal :=
  if fs = [] then none else some (.obj fs)

/-- `toMapStructure(part.FunctionCall)`: marshal the struct to JSON and
read it back as a map; fails when `Args` holds unmarshalable values. -/
def functionCallToMapStructure (fc : FunctionCall) : Except String (List (String × JVal)) :=
  if marshalableJFields fc.args then
    .ok (omitFields [("id", strField fc.id), ("args", objField fc.args), ("name", strField fc.name)])
  else .error "json: unsupported value"

/-- `toMapStructure(part.FunctionResponse)`. -/
def functionResponseToMapStructure (fr : FunctionResponse) : Except String (List (String × JVal)) :=
  if marshalableJFields fr.response then
    .ok (omitFields [("id", strField fr.id), ("name", strField fr.name),
      ("response", objField fr.response), ("scheduling", strField fr.scheduling)])
  else .error "json: unsupported value"

/-- `toMapStructure(part.ExecutableCode)`. -/
def executableCodeToMapStructure (ec : ExecutableCode) : Except String (List (String × JVal)) :=
  .ok (omitFields [("code", strField ec.code), ("language", strField ec.language)])

/-- `toMapStructure(part.CodeExecutionResult)`. -/
def codeExecutionResultToMapStructure (cer : CodeExecutionResult) :
    Except String (List (String × JVal)) :=
  .ok (omitFields [("outcome", strField cer.outcome), ("output", strField cer.output)])

/-- `toA2AFilePart` (adka2a/parts.go): URI variant when `FileData` is set,
otherwise base64-encoded inline bytes, carrying marshalled video metadata
when present. -/
def toA2AFilePart (v : GenAIPart) : Except String A2APart :=
  match v.fileData, v.inlineData with
  | none, none => .error "not a file part"
  | some fd, _ =>
      .ok (.file (.uri fd.fileURI fd.mimeType fd.displayName) [])
  | none, some blob =>
      let filePart := A2AFile.bytes (b64Encode blob.data) blob.mimeType blob.displayName
      match v.videoMetadata with
      | none => .ok (.file filePart [])
      | some vm =>
          if marshalableJFields vm then .ok (.file filePart [("video_metadata", .obj vm)])
          else .error "json: unsupported value"

/-- `toA2ADataPart` (adka2a/parts.go): dispatch in source order over
CodeExecutionResult, FunctionResponse, ExecutableCode, FunctionCall; a
part with none of them becomes an empty DataPart. -/
def toA2ADataPart (part : GenAIPart) (longRunningToolIDs : List String) :
    Except String A2APart :=
  match part.codeExecutionResult with
  | some cer =>
      (codeExecutionResultToMapStructure cer).map fun data =>
        .data data [(a2aDataPartMetaTypeKey, .str a2aDataPartTypeCodeExecResult)]
  | none =>
  match part.functionResponse with
  | some fr =>
      (functionResponseToMapStructure fr).map fun data =>
        .data data [(a2aDataPartMetaTypeKey, .str a2aDataPartTypeFunctionResponse)]
  | none =>
  match part.executableCode with
  | some ec =>
      (executableCodeToMapStructure ec).map fun data =>
        .data data [(a2aDataPartMetaTypeKey, .str a2aDataPartTypeCodeExecutableCode)]
  | none =>
  match part.functionCall with
  | some fc =>
      (functionCallToMapStructure fc).map fun data =>
        .data data [(a2aDataPartMetaTypeKey, .str a2aDataPartTypeFunctionCall),
          (a2aDataPartMetaLongRunningKey, .boolean (longRunningToolIDs.contains fc.id))]
  | none => .ok (.data [] [])

/-- One iteration of the `toA2AParts` loop (adka2a/parts.go): non-empty
text becomes a TextPart (with a thought marker in metadata), file fields
become a FilePart, everything else goes through `toA2ADataPart`. -/
def toA2APartOne (longRunningToolIDs : List String) (part : GenAIPart) :
    Except String A2APart :=
  if part.text ≠ "" then
    .ok (.text part.text (if part.thought then [(toMetaKey "thought", .boolean true)] else []))
  else if part.inlineData.isSome || part.fileData.isSome then
    toA2AFilePart part
  else
    toA2ADataPart part longRunningToolIDs

/-- `toA2AParts` (adka2a/parts.go): encode internal parts for the wire;
the first failing part aborts with its error. -/
def toA2AParts (parts : List GenAIPart) (longRunningToolIDs : List String) :
    Except String (List A2APart) :=
  parts.mapM (toA2APartOne longRunningToolIDs)

/-- `json.Unmarshal` of an object field into a Go `string` field: absent
or `null` gives the zero value, a string gives the string, any other
value is a type error. -/
def jsonGetStr (m : List (String × JVal)) (k : String) : Except String String :=
  match mapLookup m k with
  | none => .ok ""
  | some .null => .ok ""
  | some (.str s) => .ok s
  | some _ => .error "json: cannot unmarshal into string field"

/-- `json.Unmarshal` of an object field into a Go `map[string]any` field. -/
def jsonGetObj (m : List (String × JVal)) (k : String) :
    Except String (List (String × JVal)) :=
  match mapLookup m k with
  | none => .ok []
  | some .null => .ok []
  | some (.obj fs) => .ok fs
  | some _ => .error "json: cannot unmarshal into map field"

/-- `json.Unmarshal(bytes, &genai.FunctionCall{...})` on the marshalled
DataPart payload. -/
def mapToFunctionCall (m : List (String × JVal)) : Except String FunctionCall := do
  let id ← jsonGetStr m "id"
  let args ← jsonGetObj m "args"
  let name ← jsonGetStr m "name"
  .ok { id := id, args := args, name := name }

/-- `json.Unmarshal(bytes, &genai.FunctionResponse{...})`. -/
def mapToFunctionResponse (m : List (String × JVal)) : Except String FunctionResponse := do
  let id ← jsonGetStr m "id"
  let name ← jsonGetStr m "name"
  let response ← jsonGetObj m "response"
  let scheduling ← jsonGetStr m "scheduling"
  .ok { id := id, name := name, response := response, scheduling := scheduling }

/-- `json.Unmarshal(bytes, &genai.ExecutableCode{...})`. -/
def mapToExecutableCode (m : List (String × JVal)) : Except String ExecutableCode := do
  let code ← jsonGetStr m "code"
  let language ← jsonGetStr m "language"
  .ok { code := code, language := language }

/-- `json.Unmarshal(bytes, &genai.CodeExecutionResult{...})`. -/
def mapToCodeExecutionResult (m : List (String × JVal)) : Except String CodeExecutionResult := do
  let outcome ← jsonGetStr m "outcome"
  let output ← jsonGetStr m "output"
  .ok { outcome := outcome, output := output }

/-- `toGenAITextPart` (adka2a/parts.go): render a DataPart payload as its
canonical JSON text. -/
def toGenAITextPart (data : List (String × JVal)) : Except String GenAIPart :=
  if marshalableJFields data then .ok { text := (JVal.obj data).marshalString }
  else .error "json: unsupported value"

/-- `toGenAIDataPart` (adka2a/parts.go): typed payloads unmarshal into the
matching genai struct; missing metadata or type key falls back to the
canonical-JSON text part, as does an unknown type value. -/
def toGenAIDataPart (data : List (String × JVal)) (metadata : List (String × JVal)) :
    Except String GenAIPart :=
  if metadata = [] then toGenAITextPart data
  else
    match mapLookup metadata a2aDataPartMetaTypeKey with
    | none => toGenAITextPart data
    | some adkMetaType =>
        if marshalableJFields data then
          if adkMetaType = .str a2aDataPartTypeCodeExecResult then
            (mapToCodeExecutionResult data).map fun v => { codeExecutionResult := some v }
          else if adkMetaType = .str a2aDataPartTypeFunctionCall then
            (mapToFunctionCall data).map fun v => { functionCall := some v }
          else if adkMetaType = .str a2aDataPartTypeCodeExecutableCode then
            (mapToExecutableCode data).map fun v => { executableCode := some v }
          else if adkMetaType = .str a2aDataPartTypeFunctionResponse then
            (mapToFunctionResponse data).map fun v => { functionResponse := some v }
          else .ok { text := (JVal.obj data).marshalString }
        else .error "json: unsupported value"

/-- `toGenAIFilePart` (adka2a/parts.go): decode base64 for inline bytes,
copy the URI variant. -/
def toGenAIFilePart (f : A2AFile) : Except String GenAIPart :=
  match f with
  | .bytes b mime name =>
      match b64Decode b with
      | some bytesVal => .ok { inlineData := some { data := bytesVal, mimeType := mime, displayName := name } }
      | none => .error "illegal base64 data"
  | .uri u mime name => .ok { fileData := some { fileURI := u, mimeType := mime, displayName := name } }

/-- One iteration of the `toGenAIParts` loop (adka2a/parts.go). -/
def toGenAIPartOne : A2APart → Except String GenAIPart
  | .text t md =>
      match mapLookup md (toMetaKey "thought") with
      | some (.boolean b) => .ok { text := t, thought := b }
      | _ => .ok { text := t }
  | .data d md => toGenAIDataPart d md
  | .file f _ => toGenAIFilePart f

/-- `toGenAIParts` (adka2a/parts.go): decode wire parts back into internal
parts; the first failing part aborts with its error. -/
def toGenAIParts (parts : List A2APart) : Except String (List GenAIPart) :=
  parts.mapM toGenAIPartOne

/-! ## Round-trip of the part codec (claim C2) -/

/-- The domain of the round-trip property: a part that is exactly one of
the seven content kinds named by the spec (text with optional thought
flag, inline-bytes file, URI file, function call, function response,
executable code, code-execution result), carrying JSON-marshalable
payloads and genuine bytes. -/
def roundTrippable (p : GenAIPart) : Prop :=
  (∃ t th, t ≠ "" ∧ p = { text := t, thought := th })
  ∨ (∃ blob : Blob, (∀ b ∈ blob.data, b < 256) ∧ p = { inlineData := some blob })
  ∨ (∃ fd, p = { fileData := some fd })
  ∨ (∃ fc : FunctionCall, marshalableJFields fc.args = true ∧ p = { functionCall := some fc })
  ∨ (∃ fr : FunctionResponse, marshalableJFields fr.response = true ∧ p = { functionResponse := some fr })
  ∨ (∃ ec, p = { executableCode := some ec })
  ∨ (∃ cer, p = { codeExecutionResult := some cer })

theorem part_roundtrip_aux (lr : List String) (p : GenAIPart) (h : roundTrippable p) :
    (toA2APartOne lr p).bind toGenAIPartOne = .ok p := by
  rcases h with ⟨t, th, ht, rfl⟩ | ⟨blob, hb, rfl⟩ | ⟨fd, rfl⟩ | ⟨fc, hm, rfl⟩ |
    ⟨fr, hm, rfl⟩ | ⟨ec, rfl⟩ | ⟨cer, rfl⟩
  · cases th <;>
      simp [toA2APartOne, toGenAIPartOne, mapLookup, toMetaKey, ht, Except.bind]
  · rcases blob with ⟨data, mime, name⟩
    simp [toA2APartOne, toA2AFilePart, toGenAIPartOne, toGenAIFilePart, Except.bind,
      b64_roundtrip data hb]
  · simp [toA2APartOne, toA2AFilePart, toGenAIPartOne, toGenAIFilePart, Except.bind]
  · rcases fc with ⟨id, args, name⟩
    simp only [toA2APartOne, toA2ADataPart, functionCallToMapStructure] at hm ⊢
    rw [if_pos hm]
    by_cases hid : id = "" <;> by_cases hargs : args = [] <;> by_cases hname : name = "" <;>
      simp [hid, hargs, hname, omitFields, strField, objField, toGenAIPartOne,
        toGenAIDataPart, a2aDataPartMetaTypeKey, a2aDataPartMetaLongRunningKey, toMetaKey,
        a2aDataPartTypeFunctionCall, a2aDataPartTypeCodeExecResult,
        a2aDataPartTypeCodeExecutableCode, a2aDataPartTypeFunctionResponse,
        mapLookup, JVal.marshalable, marshalableJFields, hm, mapToFunctionCall,
        jsonGetStr, jsonGetObj, Except.bind, Bind.bind, Pure.pure, Except.pure, Except.map]
  · rcases fr with ⟨id, name, response, scheduling⟩
    simp only [toA2APartOne, toA2ADataPart, functionResponseToMapStructure] at hm ⊢
    rw [if_pos hm]
    by_cases hid : id = "" <;> by_cases hname : name = "" <;>
      by_cases hresp : response = [] <;> by_cases hsched : scheduling = "" <;>
      simp [hid, hname, hresp, hsched, omitFields, strField, objField, toGenAIPartOne,
        toGenAIDataPart, a2aDataPartMetaTypeKey, a2aDataPartMetaLongRunningKey, toMetaKey,
        a2aDataPartTypeFunctionCall, a2aDataPartTypeCodeExecResult,
        a2aDataPartTypeCodeExecutableCode, a2aDataPartTypeFunctionResponse,
        mapLookup, JVal.marshalable, marshalableJFields, hm, mapToFunctionResponse,
        jsonGetStr, jsonGetObj, Except.bind, Bind.bind, Pure.pure, Except.pure, Except.map]
  · rcases ec with ⟨code, language⟩
    by_cases hcode : code = "" <;> by_cases hlang : language = "" <;>
      simp [hcode, hlang, toA2APartOne, toA2ADataPart, executableCodeToMapStructure,
        omitFields, strField, toGenAIPartOne, toGenAIDataPart, a2aDataPartMetaTypeKey,
        toMetaKey, a2aDataPartTypeFunctionCall, a2aDataPartTypeCodeExecResult,
        a2aDataPartTypeCodeExecutableCode, a2aDataPartTypeFunctionResponse,
        mapLookup, JVal.marshalable, marshalableJFields, mapToExecutableCode,
        jsonGetStr, jsonGetObj, Except.bind, Bind.bind, Pure.pure, Except.pure, Except.map]
  · rcases cer with ⟨outcome, output⟩
    by_cases ho1 : outcome = "" <;> by_cases ho2 : output = "" <;>
      simp [ho1, ho2, toA2APartOne, toA2ADataPart, codeExecutionResultToMapStructure,
        omitFields, strField, toGenAIPartOne, toGenAIDataPart, a2aDataPartMetaTypeKey,
        toMetaKey, a2aDataPartTypeFunctionCall, a2aDataPartTypeCodeExecResult,
        a2aDataPartTypeCodeExecutableCode, a2aDataPartTypeFunctionResponse,
        mapLookup, JVal.marshalable, marshalableJFields, mapToCodeExecutionResult,
        jsonGetStr, jsonGetObj, Except.bind, Bind.bind, Pure.pure, Except.pure, Except.map]

/-- C2: for every internal Part that is a text part (with or without the
thought flag), an inline-bytes file, a URI file, a function call (with its
long-running flag derived from the caller-supplied ID set), a function
response, executable code, or a code-execution result, decoding the
result of encoding it (`toGenAIParts` after `toA2AParts` with the same
long-running ID set) returns a Part equal to the original. -/
theorem C2_part_codec_roundtrip (p : GenAIPart) (lr : List String)
    (h : roundTrippable p) :
    (toA2AParts [p] lr).bind toGenAIParts = .ok [p] := by
  have haux := part_roundtrip_aux lr p h
  cases heq : toA2APartOne lr p with
  | error e =>
      rw [heq] at haux
      simp [Except.bind] at haux
  | ok a =>
      rw [heq] at haux
      simp only [Except.bind] at haux
      simp only [toA2AParts, toGenAIParts, List.mapM_cons, List.mapM_nil, heq, haux]
      simp [toGenAIParts, List.mapM, List.mapM.loop, haux, Except.bind, Bind.bind,
        Pure.pure, Except.pure]

/-- A concrete long-running function-call part used to witness C2. -/
def c2SamplePart : GenAIPart :=
  { functionCall := some { id := "get_weather", args := [("city", .str "Warsaw")], name := "GetWeather" } }

/-- Witness for C2 at a concrete long-running function call. -/
theorem C2_part_codec_roundtrip_witness :
    roundTrippable c2SamplePart ∧
    (toA2AParts [c2SamplePart] ["get_weather"]).bind toGenAIParts = .ok [c2SamplePart] :=
  have hdom : roundTrippable c2SamplePart :=
    Or.inr (Or.inr (Or.inr (Or.inl
      ⟨{ id := "get_weather", args := [("city", .str "Warsaw")], name := "GetWeather" }, by decide, rfl⟩)))
  ⟨hdom, C2_part_codec_roundtrip _ ["get_weather"] hdom⟩

/-! ## Session events, invocation context and A2A events -/

/-- The slice of `agent.InvocationContext` the bridge reads: invocation
ID, the running (remote) agent's name, and the branch. -/
structure InvocationContext where
  invocationID : String := ""
  agentName : String := ""
  branch : String := ""
deriving Repr, DecidableEq

/-- `session.Event` with its embedded `model.LLMResponse` flattened in
(`event.Content` and `event.LLMResponse.Content` are the same field). -/
structure SessionEvent where
  invocationID : String := ""
  author : String := ""
  branch : String := ""
  content : Option Content := none
  errorCode : String := ""
  errorMessage : String := ""
  turnComplete : Bool := false
  groundingMetadata : Option (List (String × JVal)) := none
  customMetadata : List (String × JVal) := []
  longRunningToolIDs : List String := []
deriving Repr, DecidableEq

/-- `session.NewEvent`. -/
def sessionNewEvent (invocationID : String) : SessionEvent :=
  { invocationID := invocationID }

/-- A2A `TaskState`. -/
inductive TaskState where
  | submitted
  | working
  | inputRequired
  | completed
  | failed
  | canceled
deriving Repr, DecidableEq

/-- `a2a.Message` (role is `"user"` or `"agent"`). -/
structure A2AMessage where
  role : String := ""
  parts : List A2APart := []
  taskID : String := ""
  contextID : String := ""
deriving Repr, DecidableEq

/-- `a2a.TaskStatus`. -/
structure TaskStatus where
  state : TaskState := .submitted
  message : Option A2AMessage := none
deriving Repr, DecidableEq

/-- `a2a.Artifact`. -/
structure Artifact where
  id : String := ""
  parts : List A2APart := []
deriving Repr, DecidableEq

/-- `a2a.Task` (snapshot). -/
structure A2ATask where
  id : String := ""
  contextID : String := ""
  status : TaskStatus := {}
  artifacts : List Artifact := []
deriving Repr, DecidableEq

/-- `a2a.TaskStatusUpdateEvent`. -/
structure A2AStatusUpdate where
  taskID : String := ""
  contextID : String := ""
  status : TaskStatus := {}
  final : Bool := false
  metadata : List (String × JVal) := []
deriving Repr, DecidableEq

/-- `a2a.TaskArtifactUpdateEvent`. -/
structure A2AArtifactUpdate where
  taskID : String := ""
  contextID : String := ""
  artifact : Artifact := {}
  append : Bool := false
  lastChunk : Bool := false
  metadata : List (String × JVal) := []
deriving Repr, DecidableEq

/-- The `a2a.Event` union. -/
inductive A2AEvent where
  | message (m : A2AMessage)
  | task (t : A2ATask)
  | statusUpdate (e : A2AStatusUpdate)
  | artifactUpdate (e : A2AArtifactUpdate)
deriving Repr, DecidableEq

/-! ## adka2a event translation (the shared adka2a package) -/

/-- `ToADKMetaKey`. -/
def toADKMetaKey (key : String) : String := "a2a:" ++ key

/-- `customMetaTaskIDKey`. -/
def customMetaTaskIDKey : String := toADKMetaKey "task_id"

/-- `customMetaContextIDKey`. -/
def customMetaContextIDKey : String := toADKMetaKey "context_id"

/-- `NewRemoteAgentEvent`: a fresh event authored by the agent running in
the invocation context. -/
def newRemoteAgentEvent (ctx : InvocationContext) : SessionEvent :=
  { invocationID := ctx.invocationID, author := ctx.agentName, branch := ctx.branch }

/-- `ToCustomMetadata`: session-event custom metadata holding the A2A
task and context IDs. -/
def toCustomMetadata (taskID : String) (ctxID : String) : List (String × JVal) :=
  [(customMetaTaskIDKey, .str taskID), (customMetaContextIDKey, .str ctxID)]

/-- `GetA2ATaskInfo`: read task and context IDs back from custom
metadata; missing or non-string entries yield the empty string. -/
def getA2ATaskInfo (event : SessionEvent) : String × String :=
  let taskID := match mapLookup event.customMetadata customMetaTaskIDKey with
    | some (.str tid) => tid
    | _ => ""
  let contextID := match mapLookup event.customMetadata customMetaContextIDKey with
    | some (.str cid) => cid
    | _ => ""
  (taskID, contextID)

/-- `EventToMessage`: encode a session event's parts; the author picks
the wire role.  The Go code dereferences `event.Content` without a nil
check, so a content-less event is a panic (embedded as an error). -/
def eventToMessage (event : SessionEvent) : Except String A2AMessage :=
  match event.content with
  | none => .error "panic: nil pointer dereference (event.Content)"
  | some c =>
      (toA2AParts c.parts event.longRunningToolIDs).mapError
        (fun e => "part conversion failed: " ++ e) |>.map fun parts =>
        { role := if event.author = "user" then "user" else "agent", parts := parts }

/-- `toGenAIRole`. -/
def toGenAIRole (role : String) : String := if role = "user" then "user" else "model"

/-- `messageToEvent` (adka2a): decode the message parts into a fresh
remote-agent event; content is set only when at least one part decoded,
task/context metadata only when one of the IDs is non-empty. -/
def messageToEvent (ctx : InvocationContext) (msg : A2AMessage) :
    Except String SessionEvent := do
  let parts ← toGenAIParts msg.parts
  let event := newRemoteAgentEvent ctx
  let event := if parts.length > 0 then
      { event with content := some (newContentFromParts parts (toGenAIRole msg.role)) }
    else event
  let event := if msg.taskID ≠ "" ∨ msg.contextID ≠ "" then
      { event with customMetadata := toCustomMetadata msg.taskID msg.contextID }
    else event
  .ok event

/-- `artifactToEvent` (adka2a). -/
def artifactToEvent (ctx : InvocationContext) (artifact : Artifact) :
    Except String SessionEvent := do
  let parts ← toGenAIParts artifact.parts
  .ok { newRemoteAgentEvent ctx with content := some (newContentFromParts parts "model") }

/-- `getLongRunningToolIDs` (adka2a): IDs of the converted function calls
whose wire DataPart carries a true long-running marker. -/
def getLongRunningToolIDs (parts : List A2APart) (converted : List GenAIPart) : List String :=
  (parts.zip converted).foldr
    (fun pc ids =>
      match pc.1 with
      | .data _ md =>
          match mapLookup md a2aDataPartMetaLongRunningKey with
          | some (.boolean true) =>
              match pc.2.functionCall with
              | some fnCall => fnCall.id :: ids
              | none => ids
          | _ => ids
      | _ => ids)
    []

/-- `taskToEvent` (adka2a): concatenate all artifact parts then the
status-message parts; remember long-running IDs only when the snapshot
state is input-required. -/
def taskToEvent (ctx : InvocationContext) (task : A2ATask) : Except String SessionEvent := do
  let artifactResults ← task.artifacts.mapM fun artifact => do
    let artifactParts ← (toGenAIParts artifact.parts).mapError
      (fun e => "failed to convert artifact parts: " ++ e)
    .ok (artifactParts, getLongRunningToolIDs artifact.parts artifactParts)
  let parts := (artifactResults.map (·.1)).flatten
  let longRunningToolIDs := (artifactResults.map (·.2)).flatten
  let (parts, longRunningToolIDs) ← match task.status.message with
    | none => pure (parts, longRunningToolIDs)
    | some msg => do
        let msgParts ← (toGenAIParts msg.parts).mapError
          (fun e => "failed to convert status message parts: " ++ e)
        pure (parts ++ msgParts,
          longRunningToolIDs ++ getLongRunningToolIDs msg.parts msgParts)
  let event := newRemoteAgentEvent ctx
  let event := if parts.length > 0 then
      { event with content := some (newContentFromParts parts "model") }
    else event
  let event := { event with customMetadata := toCustomMetadata task.id task.contextID }
  let event := if task.status.state = .inputRequired then
      { event with longRunningToolIDs := longRunningToolIDs }
    else event
  .ok event

/-- `finalTaskStatusUpdateToEvent` (adka2a). -/
def finalTaskStatusUpdateToEvent (ctx : InvocationContext) (update : A2AStatusUpdate) :
    Except String SessionEvent := do
  let parts ← match update.status.message with
    | none => pure []
    | some msg => toGenAIParts msg.parts
  let event := newRemoteAgentEvent ctx
  let event := if parts.length > 0 then
      { event with content := some (newContentFromParts parts "model") }
    else event
  let event := { event with customMetadata := toCustomMetadata update.taskID update.contextID }
  .ok { event with turnComplete := true }

/-- Errors of `ToSessionEvent`: ordinary Go error returns, or a runtime
nil-pointer dereference (Go panic). -/
inductive GoErr where
  | goError (msg : String)
  | nilDeref
deriving Repr, DecidableEq

/-- `ToSessionEvent` (adka2a): map one wire event to at most one session
event.  In the non-final status-update branch the Go code assigns
`event.CustomMetadata` and reads `event.Content.Parts` before checking
the error or the nil content, so a failed decode or an empty decoded
message is a nil dereference (panic), embedded as `GoErr.nilDeref`. -/
def toSessionEvent (ctx : InvocationContext) (event : A2AEvent) :
    Except GoErr (Option SessionEvent) :=
  match event with
  | .task t => ((taskToEvent ctx t).mapError .goError).map some
  | .message m => ((messageToEvent ctx m).mapError .goError).map some
  | .artifactUpdate v =>
      if v.artifact.parts = [] then .ok none
      else
        match artifactToEvent ctx v.artifact with
        | .error e => .error (.goError ("artifact update event conversion failed: " ++ e))
        | .ok ev =>
            let withIDs := { ev with
              longRunningToolIDs :=
                getLongRunningToolIDs v.artifact.parts
                  ((ev.content.map (·.parts)).getD []),
              customMetadata := toCustomMetadata v.taskID v.contextID }
            .ok (some withIDs)
  | .statusUpdate v =>
      if v.final then ((finalTaskStatusUpdateToEvent ctx v).mapError .goError).map some
      else
        match v.status.message with
        | none => .ok none
        | some msg =>
            match messageToEvent ctx msg with
            | .error _ =>
                -- Go: `event` is nil here and `event.CustomMetadata = ...` panics
                .error .nilDeref
            | .ok ev =>
                let ev := { ev with customMetadata := toCustomMetadata v.taskID v.contextID }
                match ev.content with
                | none =>
                    -- Go: `len(event.Content.Parts)` on a nil Content panics
                    .error .nilDeref
                | some c =>
                    if c.parts.length = 0 then .ok none
                    else
                      let marked := { c with parts := c.parts.map fun p => { p with thought := true } }
                      .ok (some { ev with content := some marked })

/-! ## Claims C7 and C8: inbound message translation -/

/-- The event `messageToEvent` actually produces: always authored by the
remote agent's identity; the wire role only selects the content role. -/
def translatedMessageEvent (ctx : InvocationContext) (msg : A2AMessage)
    (parts : List GenAIPart) : SessionEvent :=
  { invocationID := ctx.invocationID, author := ctx.agentName, branch := ctx.branch,
    content := if parts.length > 0 then
        some (newContentFromParts parts (toGenAIRole msg.role))
      else none,
    customMetadata := if msg.taskID ≠ "" ∨ msg.contextID ≠ "" then
        toCustomMetadata msg.taskID msg.contextID
      else [] }

/-- C7 counterexample: translating a user-role message yields an event
authored by the remote agent's identity, not by `"user"`. -/
theorem C7_counterexample_user_role_author :
    (messageToEvent { invocationID := "inv-1", agentName := "weather-agent" }
        { role := "user", parts := [.text "hi" []] }).map (fun ev => ev.author) =
      .ok "weather-agent" ∧ "weather-agent" ≠ "user" := by
  constructor
  · rfl
  · decide

/-- C7 (amended): for every inbound wire Message, the translated session
event's author is always the remote agent's identity (the message role
instead selects the decoded content's role: `"user"` for a user-role
message, `"model"` otherwise), the parts being decoded and possibly
empty. -/
theorem C7_message_translation_amended (ctx : InvocationContext) (msg : A2AMessage)
    (parts : List GenAIPart) (h : toGenAIParts msg.parts = .ok parts) :
    messageToEvent ctx msg = .ok (translatedMessageEvent ctx msg parts) ∧
    (translatedMessageEvent ctx msg parts).author = ctx.agentName := by
  constructor
  · simp only [messageToEvent, h, translatedMessageEvent, Except.bind, Bind.bind,
      Pure.pure, Except.pure]
    by_cases hp : parts.length > 0 <;>
      by_cases hm : msg.taskID ≠ "" ∨ msg.contextID ≠ "" <;>
      simp [hp, hm, newRemoteAgentEvent]
  · rfl

/-- Witness for the amended C7 at a concrete agent-role message. -/
theorem C7_message_translation_amended_witness :
    toGenAIParts ([.text "hello" []] : List A2APart) = .ok [{ text := "hello" }] ∧
    messageToEvent { invocationID := "inv-1", agentName := "weather-agent" }
        { role := "agent", parts := [.text "hello" []] } =
      .ok (translatedMessageEvent { invocationID := "inv-1", agentName := "weather-agent" }
        { role := "agent", parts := [.text "hello" []] } [{ text := "hello" }]) :=
  ⟨rfl, (C7_message_translation_amended
    { invocationID := "inv-1", agentName := "weather-agent" }
    { role := "agent", parts := [.text "hello" []] } [{ text := "hello" }] rfl).1⟩

/-- C8: translating a non-final TaskStatusUpdate wire event whose status
message is present but has zero parts dereferences a nil Content pointer
(a panic) rather than returning no event: `messageToEvent` leaves the
session event's Content nil when the decoded part list is empty, and
`ToSessionEvent` then reads `event.Content.Parts` on that nil pointer. -/
theorem C8_nonfinal_empty_status_panics (ctx : InvocationContext)
    (v : A2AStatusUpdate) (m : A2AMessage)
    (hfinal : v.final = false) (hmsg : v.status.message = some m)
    (hempty : m.parts = []) :
    (∃ ev, messageToEvent ctx m = .ok ev ∧ ev.content = none) ∧
    toSessionEvent ctx (.statusUpdate v) = .error .nilDeref := by
  have hdecode : toGenAIParts m.parts = .ok [] := by
    rw [hempty]; rfl
  have hmsgToEvent : ∃ ev, messageToEvent ctx m = .ok ev ∧ ev.content = none := by
    by_cases hm : m.taskID ≠ "" ∨ m.contextID ≠ ""
    · have base := newRemoteAgentEvent ctx
      refine ⟨{ newRemoteAgentEvent ctx with customMetadata := toCustomMetadata m.taskID m.contextID }, ?_, ?_⟩ <;>
        simp [messageToEvent, hdecode, hm, Except.bind, Bind.bind, Pure.pure,
          Except.pure, newRemoteAgentEvent]
    · refine ⟨newRemoteAgentEvent ctx, ?_, ?_⟩ <;>
        simp [messageToEvent, hdecode, hm, Except.bind, Bind.bind, Pure.pure,
          Except.pure, newRemoteAgentEvent]
  refine ⟨hmsgToEvent, ?_⟩
  obtain ⟨ev, hok, hcontent⟩ := hmsgToEvent
  simp [toSessionEvent, hfinal, hmsg, hok, hcontent]

/-- A concrete non-final status update whose message has zero parts. -/
def c8SampleUpdate : A2AStatusUpdate :=
  { taskID := "t1", contextID := "c1",
    status := { state := .working, message := some { role := "agent" } } }

/-- Witness for C8 at a concrete non-final empty-message status update. -/
theorem C8_nonfinal_empty_status_panics_witness :
    toSessionEvent { invocationID := "inv-1", agentName := "weather-agent" }
        (.statusUpdate c8SampleUpdate) = .error .nilDeref :=
  (C8_nonfinal_empty_status_panics
    { invocationID := "inv-1", agentName := "weather-agent" }
    c8SampleUpdate { role := "agent" } rfl rfl rfl).2

/-! ## Session-history diff (agent/remoteagent/utils.go) -/

instance : Inhabited SessionEvent := ⟨{}⟩

/-- The result of the continuation check: the response event plus the
task/context IDs read from the matching call event. -/
structure UserFunctionCall where
  event : SessionEvent
  taskID : String := ""
  contextID : String := ""
deriving Repr, DecidableEq

/-- `getFunctionResponseCallID` (utils.go): call ID of the first part
with a function response. -/
def getFunctionResponseCallID (event : SessionEvent) : Option String :=
  match event.content with
  | none => none
  | some c =>
      match c.parts.find? (fun p => p.functionResponse.isSome) with
      | none => none
      | some p => p.functionResponse.map (fun r => r.id)

/-- `isFunctionCallEvent` (utils.go): does the event contain a function
call with the given ID? -/
def isFunctionCallEvent (event : SessionEvent) (callID : String) : Bool :=
  match event.content with
  | none => false
  | some c => c.parts.any fun p =>
      match p.functionCall with
      | some call => call.id = callID
      | none => false

/-- Index of the last element satisfying `p`: the embedding of a Go loop
that scans indices downward and breaks at the first hit. -/
def lastIndexWhere (p : α → Bool) : List α → Option Nat
  | [] => none
  | x :: xs =>
      match lastIndexWhere p xs with
      | some j => some (j + 1)
      | none => if p x then some 0 else none

/-- `getUserFunctionCallAt` (utils.go): non-`none` when the event at
`index` is user-authored and carries a function response whose call ID
matches a function call in some earlier event (scanning backward); the
matching call event supplies the task/context IDs. -/
def getUserFunctionCallAt (events : List SessionEvent) (index : Int) :
    Option UserFunctionCall :=
  if index < 0 ∨ index ≥ (events.length : Int) then none
  else
    let i := index.toNat
    let candidate := events.getD i default
    if candidate.author ≠ "user" then none
    else
      match getFunctionResponseCallID candidate with
      | none => none
      | some fnCallID =>
          match lastIndexWhere (fun e => isFunctionCallEvent e fnCallID) (events.take i) with
          | none => none
          | some j =>
              let found := events.getD j default
              let info := getA2ATaskInfo found
              some { event := candidate, taskID := info.1, contextID := info.2 }

/-- One rewritten part of `presentAsUserMessage` (utils.go): thoughts are
dropped, text/call/response parts become crediting text lines, anything
else passes through unchanged. -/
def presentPart (author : String) (part : GenAIPart) : Option GenAIPart :=
  if part.thought then none
  else if part.text ≠ "" then
    some (newPartFromText ("[" ++ author ++ "] said: " ++ part.text))
  else
    match part.functionCall with
    | some call =>
        some (newPartFromText ("[" ++ author ++ "] called tool " ++ call.name ++
          " with parameters: " ++ (JVal.obj call.args).goFormat))
    | none =>
        match part.functionResponse with
        | some resp =>
            some (newPartFromText ("[" ++ author ++ "] " ++ resp.name ++
              " tool returned result: " ++ (JVal.obj resp.response).goFormat))
        | none => some part

/-- `presentAsUserMessage` (utils.go): re-present a foreign agent's event
as a user message with a leading `"For context:"` marker; if no original
part survives, the result keeps a nil content (no orphan marker). -/
def presentAsUserMessage (ctx : InvocationContext) (agentEvent : SessionEvent) :
    SessionEvent :=
  let event := { sessionNewEvent ctx.invocationID with author := "user" }
  match agentEvent.content with
  | none => event
  | some content =>
      let parts := newPartFromText "For context:" ::
        content.parts.filterMap (presentPart agentEvent.author)
      if parts.length > 1 then
        { event with content := some (newContentFromParts parts "user") }
      else event

/-- Index of the last event authored by the remote agent (the backward
scan of `toMissingRemoteSessionParts`). -/
def lastRemoteIndex (agentName : String) (events : List SessionEvent) : Option Nat :=
  lastIndexWhere (fun e => e.author = agentName) events

/-- The first index of the diff range: one past the last remote-authored
event, or zero when there is none. -/
def diffStart (ctx : InvocationContext) (events : List SessionEvent) : Nat :=
  match lastRemoteIndex ctx.agentName events with
  | none => 0
  | some i => i + 1

/-- The event a diff iteration works on: foreign-agent events are
re-presented as user messages, user/remote events pass through. -/
def diffEffectiveEvent (ctx : InvocationContext) (event : SessionEvent) : SessionEvent :=
  if event.author ≠ "user" ∧ event.author ≠ ctx.agentName then
    presentAsUserMessage ctx event
  else event

/-- One iteration of the forward loop of `toMissingRemoteSessionParts`:
events with nil or empty content contribute nothing, and an encoding
error silently drops the whole event (the Go code logs and continues). -/
def diffEventContribution (ctx : InvocationContext) (event : SessionEvent) : List A2APart :=
  let event := diffEffectiveEvent ctx event
  match event.content with
  | none => []
  | some c =>
      if c.parts.length = 0 then []
      else
        match toA2AParts c.parts event.longRunningToolIDs with
        | .error _ => []
        | .ok parts => parts

/-- `toMissingRemoteSessionParts` (utils.go): context ID from the last
remote-authored event's metadata, parts accumulated from all later
events. -/
def toMissingRemoteSessionParts (ctx : InvocationContext) (events : List SessionEvent) :
    List A2APart × String :=
  let scan : Nat × String := match lastRemoteIndex ctx.agentName events with
    | none => (0, "")
    | some i => (i + 1, (getA2ATaskInfo (events.getD i default)).2)
  let result := (events.drop scan.1).foldl
    (fun acc event => acc ++ diffEventContribution ctx event) []
  (result, scan.2)

/-- `newMessage` (a2a_agent.go): the continuation check on the literal
last event, falling back to the generic diff. -/
def newMessage (ctx : InvocationContext) (events : List SessionEvent) :
    Except String A2AMessage :=
  match getUserFunctionCallAt events ((events.length : Int) - 1) with
  | some userFnCall => do
      let msg ← eventToMessage userFnCall.event
      .ok { msg with taskID := userFnCall.taskID, contextID := userFnCall.contextID }
  | none =>
      let scan := toMissingRemoteSessionParts ctx events
      .ok { role := "user", parts := scan.1, taskID := "", contextID := scan.2 }

/-! ## Claim C5: the generic diff -/

theorem foldl_append_eq_flatten {α β : Type} (f : α → List β) :
    ∀ (l : List α) (init : List β),
      l.foldl (fun acc x => acc ++ f x) init = init ++ (l.map f).flatten
  | [], init => by simp
  | x :: xs, init => by
      simp [foldl_append_eq_flatten f xs (init ++ f x), List.append_assoc]

theorem lastIndexWhere_none_spec {α : Type} [Inhabited α] (p : α → Bool) :
    ∀ l : List α, lastIndexWhere p l = none →
      ∀ j, j < l.length → p (l.getD j default) = false
  | [] => by
      intro _ j hj
      simp at hj
  | x :: xs => by
      intro h j hj
      simp only [lastIndexWhere] at h
      cases hxs : lastIndexWhere p xs with
      | some j2 => rw [hxs] at h; cases h
      | none =>
          rw [hxs] at h
          by_cases hp : p x
          · rw [if_pos hp] at h; cases h
          · rw [if_neg hp] at h
            cases j with
            | zero => simpa using hp
            | succ j2 =>
                simpa using lastIndexWhere_none_spec p xs hxs j2 (by simpa using hj)

theorem lastIndexWhere_some_spec {α : Type} [Inhabited α] (p : α → Bool) :
    ∀ (l : List α) (i : Nat), lastIndexWhere p l = some i →
      i < l.length ∧ p (l.getD i default) = true ∧
      ∀ j, i < j → j < l.length → p (l.getD j default) = false
  | [], i => by simp [lastIndexWhere]
  | x :: xs, i => by
      intro h
      simp only [lastIndexWhere] at h
      cases hxs : lastIndexWhere p xs with
      | some j =>
          rw [hxs] at h
          injection h with h
          subst h
          obtain ⟨h1, h2, h3⟩ := lastIndexWhere_some_spec p xs j hxs
          refine ⟨by simpa using Nat.succ_lt_succ h1, by simpa using h2, ?_⟩
          intro k hk1 hk2
          cases k with
          | zero => omega
          | succ k2 => simpa using h3 k2 (by omega) (by simpa using hk2)
      | none =>
          rw [hxs] at h
          by_cases hp : p x
          · rw [if_pos hp] at h
            injection h with h
            subst h
            refine ⟨by simp, by simpa using hp, ?_⟩
            intro j hj1 hj2
            cases j with
            | zero => omega
            | succ j2 =>
                simpa using lastIndexWhere_none_spec p xs hxs j2 (by simpa using hj2)
          · rw [if_neg hp] at h
            cases h

/-- The remote agent of the worked spec example. -/
def c5Ctx : InvocationContext := { invocationID := "inv", agentName := "remote-agent" }

/-- The spec's example log: [user:"hello", remote:"hi"(ctx="ctx-1"),
user:"foo", user:"bar"]. -/
def c5Log : List SessionEvent :=
  [{ author := "user", content := some { role := "user", parts := [{ text := "hello" }] } },
   { author := "remote-agent", content := some { role := "model", parts := [{ text := "hi" }] },
     customMetadata := toCustomMetadata "tid" "ctx-1" },
   { author := "user", content := some { role := "user", parts := [{ text := "foo" }] } },
   { author := "user", content := some { role := "user", parts := [{ text := "bar" }] } }]

/-- C5: the generic diff takes parts only from events strictly after the
last event authored by the remote agent's name, in log order (each event
contributing through `diffEventContribution`), and returns the context ID
recorded in that last remote-authored event's correlation metadata (the
empty string when no remote-authored event exists); `lastRemoteIndex`
really is the last remote-authored position.  On the example log
[user:"hello", remote:"hi"(ctx="ctx-1"), user:"foo", user:"bar"] the
result is the parts "foo","bar" with context ID "ctx-1". -/
theorem C5_generic_diff_characterization :
    (∀ ctx events, toMissingRemoteSessionParts ctx events =
      (((events.drop (diffStart ctx events)).map (diffEventContribution ctx)).flatten,
        match lastRemoteIndex ctx.agentName events with
        | none => ""
        | some i => (getA2ATaskInfo (events.getD i default)).2)) ∧
    (∀ name events i, lastRemoteIndex name events = some i →
      i < events.length ∧ (events.getD i default).author = name ∧
      ∀ j, i < j → j < events.length → (events.getD j default).author ≠ name) ∧
    (∀ name events, lastRemoteIndex name events = none →
      ∀ j, j < events.length → (events.getD j default).author ≠ name) ∧
    toMissingRemoteSessionParts c5Ctx c5Log = ([.text "foo" [], .text "bar" []], "ctx-1") := by
  refine ⟨?_, ?_, ?_, by rfl⟩
  · intro ctx events
    simp only [toMissingRemoteSessionParts, diffStart]
    cases h : lastRemoteIndex ctx.agentName events <;>
      simp [h, foldl_append_eq_flatten]
  · intro name events i h
    simp only [lastRemoteIndex] at h
    have := lastIndexWhere_some_spec (fun e => e.author = name) events i h
    simpa using this
  · intro name events h j hj
    simp only [lastRemoteIndex] at h
    have := lastIndexWhere_none_spec (fun e => e.author = name) events h j hj
    simpa using this

/-- Witness for C5: the worked example evaluated through the theorem. -/
theorem C5_generic_diff_characterization_witness :
    toMissingRemoteSessionParts c5Ctx c5Log = ([.text "foo" [], .text "bar" []], "ctx-1") :=
  C5_generic_diff_characterization.2.2.2

/-! ## Claim C6: re-presentation of foreign-agent events -/

/-- C6: an event authored by neither "user" nor the remote identity is
rewritten into a leading "For context:" part followed by one descriptive
line per surviving part crediting the original author ("[author] said:"
for text, "[author] called tool ... with parameters:" for calls,
"[author] ... tool returned result:" for responses), thought parts being
dropped; and when every part is dropped the event keeps a nil content and
contributes no parts at all to the diff (no orphan marker). -/
theorem C6_foreign_event_representation :
    (∀ author part, part.thought = true → presentPart author part = none) ∧
    (∀ author part, part.thought = false → part.text ≠ "" →
      presentPart author part =
        some (newPartFromText ("[" ++ author ++ "] said: " ++ part.text))) ∧
    (∀ author part call, part.thought = false → part.text = "" →
      part.functionCall = some call →
      presentPart author part =
        some (newPartFromText ("[" ++ author ++ "] called tool " ++ call.name ++
          " with parameters: " ++ (JVal.obj call.args).goFormat))) ∧
    (∀ author part resp, part.thought = false → part.text = "" →
      part.functionCall = none → part.functionResponse = some resp →
      presentPart author part =
        some (newPartFromText ("[" ++ author ++ "] " ++ resp.name ++
          " tool returned result: " ++ (JVal.obj resp.response).goFormat))) ∧
    (∀ ctx e c, e.content = some c →
      c.parts.filterMap (presentPart e.author) ≠ [] →
      (presentAsUserMessage ctx e).content =
        some (newContentFromParts
          (newPartFromText "For context:" :: c.parts.filterMap (presentPart e.author))
          "user")) ∧
    (∀ ctx e c, e.content = some c →
      c.parts.filterMap (presentPart e.author) = [] →
      (presentAsUserMessage ctx e).content = none) ∧
    (∀ ctx e c, e.author ≠ "user" → e.author ≠ ctx.agentName →
      e.content = some c →
      c.parts.filterMap (presentPart e.author) = [] →
      diffEventContribution ctx e = []) := by
  refine ⟨?_, ?_, ?_, ?_, ?_, ?_, ?_⟩
  · intro author part h
    simp [presentPart, h]
  · intro author part h1 h2
    simp [presentPart, h1, h2]
  · intro author part call h1 h2 h3
    simp [presentPart, h1, h2, h3]
  · intro author part resp h1 h2 h3 h4
    simp [presentPart, h1, h2, h3, h4]
  · intro ctx e c hc hne
    have hlen : 0 < (c.parts.filterMap (presentPart e.author)).length :=
      List.length_pos.mpr hne
    simp only [presentAsUserMessage, hc]
    rw [if_pos (by simp; omega)]
  · intro ctx e c hc hnil
    simp [presentAsUserMessage, hc, hnil, sessionNewEvent]
  · intro ctx e c h1 h2 hc hnil
    have hcontent : (presentAsUserMessage ctx e).content = none := by
      simp [presentAsUserMessage, hc, hnil, sessionNewEvent]
    simp [diffEventContribution, diffEffectiveEvent, h1, h2, hcontent]

/-- An all-thought foreign-agent event used to witness C6. -/
def c6ThoughtEvent : SessionEvent :=
  { author := "other-agent",
    content := some { role := "model", parts := [{ text := "x", thought := true }] } }

/-- Witness for C6: an all-thought foreign event contributes nothing. -/
theorem C6_foreign_event_representation_witness :
    (presentAsUserMessage c5Ctx c6ThoughtEvent).content = none ∧
    diffEventContribution c5Ctx c6ThoughtEvent = [] :=
  ⟨C6_foreign_event_representation.2.2.2.2.2.1 c5Ctx _ _ rfl rfl,
   C6_foreign_event_representation.2.2.2.2.2.2 c5Ctx _ _ (by decide) (by decide) rfl rfl⟩

/-! ## Claim C10: silent skip of events whose encoding fails -/

/-- The diff context and a log whose middle event holds a function call
with an unmarshalable argument, so its encoding fails. -/
def c10BadCall : FunctionCall :=
  { id := "x", args := [("ch", .unsupported "chan")], name := "f" }

/-- The event carrying the unmarshalable call. -/
def c10BadEvent : SessionEvent :=
  { author := "user",
    content := some { role := "user", parts := [{ functionCall := some c10BadCall }] } }

/-- The log [user:"hello", bad event, user:"bar"]. -/
def c10Log : List SessionEvent :=
  [{ author := "user", content := some { role := "user", parts := [{ text := "hello" }] } },
   c10BadEvent,
   { author := "user", content := some { role := "user", parts := [{ text := "bar" }] } }]

/-- C10: when encoding the parts of one event fails, that event's parts
are silently omitted (its contribution is empty; the function surfaces no
error) while every other event of the log is still processed and
included; on the example log the failing middle event vanishes and the
surrounding parts survive. -/
theorem C10_encode_failure_skips_event :
    (∀ ctx e c err, (diffEffectiveEvent ctx e).content = some c →
      toA2AParts c.parts (diffEffectiveEvent ctx e).longRunningToolIDs = .error err →
      diffEventContribution ctx e = []) ∧
    (∀ ctx events, (toMissingRemoteSessionParts ctx events).1 =
      ((events.drop (diffStart ctx events)).map (diffEventContribution ctx)).flatten) ∧
    toA2AParts [{ functionCall := some c10BadCall }] [] =
      .error "json: unsupported value" ∧
    toMissingRemoteSessionParts c5Ctx c10Log = ([.text "hello" [], .text "bar" []], "") := by
  refine ⟨?_, ?_, by rfl, by rfl⟩
  · intro ctx e c err hc herr
    simp only [diffEventContribution, hc]
    by_cases hlen : c.parts.length = 0
    · simp [hlen]
    · simp [hlen, herr]
  · intro ctx events
    simp only [toMissingRemoteSessionParts, diffStart]
    cases h : lastRemoteIndex ctx.agentName events <;>
      simp [h, foldl_append_eq_flatten]

/-- Witness for C10: the failing event's contribution is empty, via the
theorem applied at the concrete bad event. -/
theorem C10_encode_failure_skips_event_witness :
    diffEventContribution c5Ctx c10BadEvent = [] :=
  C10_encode_failure_skips_event.1 c5Ctx c10BadEvent
    { role := "user", parts := [{ functionCall := some c10BadCall }] }
    "json: unsupported value" rfl rfl

/-! ## Claim C3: the continuation check -/

/-- The remote agent of the continuation examples. -/
def c3Ctx : InvocationContext := { invocationID := "inv", agentName := "remote-agent" }

/-- A function-call event authored by a non-remote helper agent, carrying
correlation metadata. -/
def c3CallContent : Content :=
  { role := "model",
    parts := [{ functionCall := some { id := "call-X", args := [], name := "tool" } }] }

/-- The helper-agent event wrapping the call content. -/
def c3HelperEvent : SessionEvent :=
  { author := "helper-agent", content := some c3CallContent,
    customMetadata := toCustomMetadata "task-9" "ctx-9" }

/-- The user's function-response event matching the helper's call ID. -/
def c3ResponseContent : Content :=
  { role := "user",
    parts := [{ functionResponse := some { id := "call-X", name := "tool" } }] }

/-- The user response event wrapping the response content. -/
def c3ResponseEvent : SessionEvent :=
  { author := "user", content := some c3ResponseContent }

/-- The log [helper:call(id=X), user:response(id=X)]: no remote-authored
event at all. -/
def c3Log : List SessionEvent := [c3HelperEvent, c3ResponseEvent]

theorem getD_take_of_lt {α : Type} [Inhabited α] :
    ∀ (l : List α) (n j : Nat), j < n →
      (l.take n).getD j default = l.getD j default
  | [], n, j, _ => by simp
  | x :: xs, n + 1, 0, _ => by simp
  | x :: xs, n + 1, j + 1, h => by
      simpa using getD_take_of_lt xs n j (by omega)

theorem getLast?_eq_getD {α : Type} [Inhabited α] :
    ∀ l : List α, l ≠ [] → l.getLast? = some (l.getD (l.length - 1) default)
  | [], h => absurd rfl h
  | [x], _ => by simp
  | x :: y :: rest, _ => by
      rw [List.getLast?_cons_cons, getLast?_eq_getD (y :: rest) (by simp)]
      simp

/-- The continuation message the code actually sends on `c3Log`. -/
def c3ContinuationMessage : A2AMessage :=
  { role := "user",
    parts := [.data [("id", .str "call-X"), ("name", .str "tool")]
      [("adk_type", .str "function_response")]],
    taskID := "task-9", contextID := "ctx-9" }

/-- C3 counterexample: on the log [helper:call(id=X), user:response(id=X)]
no event is remote-authored, yet the continuation path is taken (the
backward scan accepts a call event of any author), and the outbound
message is the response parts tagged with the helper event's IDs — the
claim's "scanning backward among remote-authored events" is false of the
code. -/
theorem C3_counterexample_nonremote_call_match :
    (∀ e ∈ c3Log, e.author ≠ "remote-agent") ∧
    getUserFunctionCallAt c3Log ((c3Log.length : Int) - 1) =
      some { event := c3ResponseEvent, taskID := "task-9", contextID := "ctx-9" } ∧
    newMessage c3Ctx c3Log = .ok c3ContinuationMessage := by
  refine ⟨by decide, by rfl, by rfl⟩

theorem continuation_extract (events : List SessionEvent) (u : UserFunctionCall)
    (h : getUserFunctionCallAt events ((events.length : Int) - 1) = some u) :
    events ≠ [] ∧
    u.event = events.getD (events.length - 1) default ∧
    u.event.author = "user" ∧
    ∃ cid j, getFunctionResponseCallID u.event = some cid ∧
      lastIndexWhere (fun e => isFunctionCallEvent e cid)
        (events.take (events.length - 1)) = some j ∧
      u.taskID = (getA2ATaskInfo (events.getD j default)).1 ∧
      u.contextID = (getA2ATaskInfo (events.getD j default)).2 := by
  have hnil : events ≠ [] := by
    intro he
    subst he
    simp [getUserFunctionCallAt] at h
  have hlen : 0 < events.length := List.length_pos.mpr hnil
  refine ⟨hnil, ?_⟩
  simp only [getUserFunctionCallAt] at h
  rw [if_neg (by omega)] at h
  rw [show ((events.length : Int) - 1).toNat = events.length - 1 by omega] at h
  by_cases hauthor : (events.getD (events.length - 1) default).author = "user"
  · rw [if_neg (not_not_intro hauthor)] at h
    cases hfr : getFunctionResponseCallID (events.getD (events.length - 1) default) with
    | none =>
        rw [hfr] at h
        cases h
    | some cid =>
        rw [hfr] at h
        dsimp only at h
        cases hli : lastIndexWhere (fun e => isFunctionCallEvent e cid)
            (events.take (events.length - 1)) with
        | none =>
            rw [hli] at h
            cases h
        | some j =>
            rw [hli] at h
            dsimp only at h
            injection h with h
            subst h
            exact ⟨rfl, hauthor, cid, j, hfr, hli, rfl, rfl⟩
  · rw [if_pos hauthor] at h
    cases h

theorem continuation_intro (events : List SessionEvent) (hnil : events ≠ [])
    (hauthor : (events.getD (events.length - 1) default).author = "user")
    (cid : String)
    (hfr : getFunctionResponseCallID (events.getD (events.length - 1) default) = some cid)
    (j : Nat)
    (hli : lastIndexWhere (fun e => isFunctionCallEvent e cid)
      (events.take (events.length - 1)) = some j) :
    getUserFunctionCallAt events ((events.length : Int) - 1) =
      some { event := events.getD (events.length - 1) default,
             taskID := (getA2ATaskInfo (events.getD j default)).1,
             contextID := (getA2ATaskInfo (events.getD j default)).2 } := by
  have hlen : 0 < events.length := List.length_pos.mpr hnil
  simp only [getUserFunctionCallAt]
  rw [if_neg (by omega)]
  rw [show ((events.length : Int) - 1).toNat = events.length - 1 by omega]
  rw [if_neg (not_not_intro hauthor)]
  rw [hfr]
  dsimp only
  rw [hli]

/-- The generic-path message: the whole diff with its context ID. -/
def genericDiffMessage (ctx : InvocationContext) (events : List SessionEvent) : A2AMessage :=
  { role := "user", parts := (toMissingRemoteSessionParts ctx events).1,
    taskID := "", contextID := (toMissingRemoteSessionParts ctx events).2 }

/-- C3 (amended): the continuation path is taken if and only if the last
event of the log is user-authored and contains a function response whose
call ID matches a function call found by scanning backward among ALL
earlier events (any author); in that case the outbound message consists
of exactly that response event's encoded parts, with task and context IDs
from the nearest preceding matching call event's correlation metadata,
and a match at any position other than the literal last event falls into
the generic diff path instead. -/
theorem C3_continuation_amended :
    (∀ events : List SessionEvent,
      (getUserFunctionCallAt events ((events.length : Int) - 1)).isSome ↔
      (∃ last, events.getLast? = some last ∧ last.author = "user" ∧
        ∃ cid, getFunctionResponseCallID last = some cid ∧
          ∃ j, j < events.length - 1 ∧
            isFunctionCallEvent (events.getD j default) cid = true)) ∧
    (∀ ctx events u, getUserFunctionCallAt events ((events.length : Int) - 1) = some u →
      events.getLast? = some u.event ∧
      newMessage ctx events = (eventToMessage u.event).map
        (fun msg => { msg with taskID := u.taskID, contextID := u.contextID }) ∧
      ∃ cid j, getFunctionResponseCallID u.event = some cid ∧
        lastIndexWhere (fun e => isFunctionCallEvent e cid)
          (events.take (events.length - 1)) = some j ∧
        u.taskID = (getA2ATaskInfo (events.getD j default)).1 ∧
        u.contextID = (getA2ATaskInfo (events.getD j default)).2) ∧
    (∀ ctx events, getUserFunctionCallAt events ((events.length : Int) - 1) = none →
      newMessage ctx events = .ok (genericDiffMessage ctx events)) := by
  refine ⟨?_, ?_, ?_⟩
  · intro events
    constructor
    · intro hsome
      obtain ⟨u, hu⟩ := Option.isSome_iff_exists.mp hsome
      obtain ⟨hnil, heq, hauthor, cid, j, hfr, hli, _, _⟩ := continuation_extract events u hu
      refine ⟨u.event, ?_, hauthor, cid, hfr, j, ?_, ?_⟩
      · rw [getLast?_eq_getD events hnil, heq]
      · have hspec := lastIndexWhere_some_spec (fun e => isFunctionCallEvent e cid) _ _ hli
        have hlen := hspec.1
        rw [List.length_take] at hlen
        omega
      · have hspec := lastIndexWhere_some_spec (fun e => isFunctionCallEvent e cid) _ _ hli
        have hj : j < events.length - 1 := by
          have := hspec.1
          rw [List.length_take] at this
          omega
        have := hspec.2.1
        rwa [getD_take_of_lt events (events.length - 1) j hj] at this
    · rintro ⟨last, hlast, hauthor, cid, hfr, j, hj, hcall⟩
      have hnil : events ≠ [] := by
        intro he
        subst he
        simp at hlast
      have hlasteq : last = events.getD (events.length - 1) default := by
        rw [getLast?_eq_getD events hnil] at hlast
        exact (Option.some.inj hlast).symm
      subst hlasteq
      cases hli : lastIndexWhere (fun e => isFunctionCallEvent e cid)
          (events.take (events.length - 1)) with
      | none =>
          exfalso
          have hnone := lastIndexWhere_none_spec
            (fun e => isFunctionCallEvent e cid) _ hli j
            (by rw [List.length_take]; omega)
          simp only [getD_take_of_lt events (events.length - 1) j hj] at hnone
          rw [hcall] at hnone
          cases hnone
      | some j2 =>
          rw [continuation_intro events hnil hauthor cid hfr j2 hli]
          rfl
  · intro ctx events u h
    obtain ⟨hnil, heq, hauthor, cid, j, hfr, hli, htid, hcid⟩ :=
      continuation_extract events u h
    refine ⟨?_, ?_, cid, j, hfr, hli, htid, hcid⟩
    · rw [getLast?_eq_getD events hnil, heq]
    · simp only [newMessage, h]
      cases hm : eventToMessage u.event <;>
        simp [hm, Except.map, Except.bind, Bind.bind, Pure.pure, Except.pure]
  · intro ctx events h
    simp [newMessage, h, genericDiffMessage]

/-- Witness for the amended C3: the remote-call continuation example
gives exactly the response event's parts with the call's IDs. -/
theorem C3_continuation_amended_witness :
    newMessage c3Ctx c3Log = (eventToMessage c3ResponseEvent).map
      (fun msg => { msg with taskID := "task-9", contextID := "ctx-9" }) :=
  (C3_continuation_amended.2.1 c3Ctx c3Log
    { event := c3ResponseEvent, taskID := "task-9", contextID := "ctx-9" } rfl).2.1

/-! ## Claim C9: agent-card resolution from a file (a2a_agent.go) -/

/-- The peer descriptor (`a2a.AgentCard`); only its identity matters
here. -/
structure AgentCard where
  url : String := ""
deriving Repr, DecidableEq

/-- `A2AConfig` (a2a_agent.go), restricted to the fields `resolveAgentCard`
reads. -/
structure A2AConfig where
  name : String := ""
  agentCard : Option AgentCard := none
  agentCardSource : String := ""
deriving Repr, DecidableEq

/-- Whether the card source is an http(s) URL. -/
def hasURLScheme (source : String) : Bool :=
  "http://".toList.isPrefixOf source.toList || "https://".toList.isPrefixOf source.toList

/-- Go `json.Unmarshal(data, dst)` into a typed pointer that may be nil:
a nil destination is an `InvalidUnmarshalError` before any data is
looked at; only a non-nil destination runs the actual parser. -/
def jsonUnmarshalCard (parse : List Nat → Except String AgentCard)
    (data : List Nat) (dst : Option Unit) : Except String AgentCard :=
  match dst with
  | none => .error "json: Unmarshal(nil *a2a.AgentCard)"
  | some _ => parse data

/-- `resolveAgentCard` (a2a_agent.go): a provided card wins; an http(s)
source goes through the resolver; otherwise the file is read and
unmarshalled — into the nil pointer `var card *a2a.AgentCard`, which the
code passes by value to `json.Unmarshal`. -/
def resolveAgentCard (readFile : String → Except String (List Nat))
    (resolveHTTP : String → Except String AgentCard)
    (parse : List Nat → Except String AgentCard)
    (cfg : A2AConfig) : Except String AgentCard :=
  match cfg.agentCard with
  | some card => .ok card
  | none =>
      if hasURLScheme cfg.agentCardSource then
        match resolveHTTP cfg.agentCardSource with
        | .error e => .error ("failed to fetch an agent card: " ++ e)
        | .ok card => .ok card
      else
        match readFile cfg.agentCardSource with
        | .error e => .error ("failed to read agent card: " ++ e)
        | .ok fileBytes =>
            match jsonUnmarshalCard parse fileBytes none with
            | .error e => .error ("failed to unmarshal an agent card: " ++ e)
            | .ok card => .ok card

/-- `toErrorEvent` (a2a_agent.go). -/
def toErrorEvent (ctx : InvocationContext) (errMsg : String) : SessionEvent :=
  let event := { newRemoteAgentEvent ctx with errorMessage := errMsg }
  { event with customMetadata := [(toADKMetaKey "error", .str errMsg)] }

/-- Insert or replace a key in an association list (Go map assignment). -/
def mapSet : List (String × JVal) → String → JVal → List (String × JVal)
  | [], k, v => [(k, v)]
  | (k1, v1) :: rest, k, v =>
      if k1 = k then (k, v) :: rest else (k1, v1) :: mapSet rest k v

/-- The marshalled form of the outbound `MessageSendParams` attached to
yielded events (identifying fields only; no claim reads the payload). -/
def msgSendParamsToJVal (msg : A2AMessage) : JVal :=
  .obj [("role", .str msg.role), ("taskId", .str msg.taskID),
    ("contextId", .str msg.contextID)]

/-- `updateCustomMetadata` (a2a_agent.go).  Note the source marshals the
REQUEST for both the request and the response keys. -/
def updateCustomMetadata (event : SessionEvent) (request : Option A2AMessage)
    (response : Option A2AEvent) : SessionEvent :=
  if request = none ∧ response = none then event
  else
    let meta := event.customMetadata
    let meta := match request with
      | none => meta
      | some req => mapSet meta (toADKMetaKey "request") (msgSendParamsToJVal req)
    let meta := match response, request with
      | some _, some req => mapSet meta (toADKMetaKey "response") (msgSendParamsToJVal req)
      | _, _ => meta
    { event with customMetadata := meta }

/-- How a client-role run ends: the yielded events, with a marker when a
nil dereference (Go panic) escaped the loop. -/
inductive RunOutcome where
  | events (evs : List SessionEvent)
  | panicked (evs : List SessionEvent)
deriving Repr, DecidableEq

/-- Collaborators of one client-role invocation. -/
structure RunDeps where
  readFile : String → Except String (List Nat)
  resolveHTTP : String → Except String AgentCard
  parse : List Nat → Except String AgentCard
  createClient : Except String Unit
  stream : List (Except String A2AEvent)

/-- Prepend a translated event to a loop outcome. -/
def RunOutcome.cons (e : SessionEvent) : RunOutcome → RunOutcome
  | .events evs => .events (e :: evs)
  | .panicked evs => .panicked (e :: evs)

/-- The streaming loop of `a2aAgent.run`: translate each inbound wire
event, skip `nil` translations, stop with a single error event on a
transport or translation error. -/
def runStreamLoop (ctx : InvocationContext) (req : A2AMessage) :
    List (Except String A2AEvent) → RunOutcome
  | [] => .events []
  | .error e :: _ =>
      .events [updateCustomMetadata (toErrorEvent ctx e) (some req) none]
  | .ok a2aEvent :: rest =>
      match toSessionEvent ctx a2aEvent with
      | .error .nilDeref => .panicked []
      | .error (.goError e) =>
          .events [updateCustomMetadata
            (toErrorEvent ctx ("failed to convert a2aEvent: " ++ e)) (some req) none]
      | .ok none => runStreamLoop ctx req rest
      | .ok (some event) =>
          RunOutcome.cons (updateCustomMetadata event (some req) (some a2aEvent))
            (runStreamLoop ctx req rest)

/-- `a2aAgent.run` (a2a_agent.go): resolve the card, create the client,
build the outbound message, and stream; every failure before the send
yields exactly one error event.  The boolean records whether a streaming
send was issued (a network call to the peer). -/
def a2aAgentRun (deps : RunDeps) (ctx : InvocationContext) (cfg : A2AConfig)
    (events : List SessionEvent) : RunOutcome × Bool :=
  match resolveAgentCard deps.readFile deps.resolveHTTP deps.parse cfg with
  | .error err =>
      (.events [toErrorEvent ctx ("agent card resolution failed: " ++ err)], false)
  | .ok _ =>
  match deps.createClient with
  | .error err =>
      (.events [toErrorEvent ctx ("client creation failed: " ++ err)], false)
  | .ok _ =>
  match newMessage ctx events with
  | .error err =>
      (.events [toErrorEvent ctx ("message creation failed: " ++ err)], false)
  | .ok msg =>
  if msg.parts.length = 0 then (.events [newRemoteAgentEvent ctx], false)
  else (runStreamLoop ctx msg deps.stream, true)

/-- C9: resolving a peer agent card from a local file path always fails —
the bytes are unmarshalled into a nil `*a2a.AgentCard`, so even a parser
that would accept the content never runs and `json.Unmarshal` returns an
error; the client-role run then yields exactly one error event and ends
without any network call to the peer. -/
theorem C9_file_card_resolution_always_fails :
    (∀ readFile resolveHTTP parse cfg bytesVal,
      cfg.agentCard = none → hasURLScheme cfg.agentCardSource = false →
      readFile cfg.agentCardSource = .ok bytesVal →
      resolveAgentCard readFile resolveHTTP parse cfg =
        .error "failed to unmarshal an agent card: json: Unmarshal(nil *a2a.AgentCard)") ∧
    (∀ deps ctx cfg events,
      cfg.agentCard = none → hasURLScheme cfg.agentCardSource = false →
      ∃ msg, a2aAgentRun deps ctx cfg events =
        (.events [toErrorEvent ctx ("agent card resolution failed: " ++ msg)], false)) := by
  constructor
  · intro readFile resolveHTTP parse cfg bytesVal hcard hurl hread
    simp [resolveAgentCard, hcard, hurl, hread, jsonUnmarshalCard]
  · intro deps ctx cfg events hcard hurl
    simp only [a2aAgentRun, resolveAgentCard, hcard, hurl]
    cases hread : deps.readFile cfg.agentCardSource with
    | error e => exact ⟨"failed to read agent card: " ++ e, by simp⟩
    | ok bytesVal =>
        exact ⟨"failed to unmarshal an agent card: json: Unmarshal(nil *a2a.AgentCard)",
          by simp [jsonUnmarshalCard]⟩

/-- Witness for C9: a run whose file read succeeds and whose parser would
accept the content still yields exactly one resolution-error event and
issues no network call. -/
theorem C9_file_card_resolution_always_fails_witness :
    resolveAgentCard (fun _ => .ok [123]) (fun _ => .error "no http")
        (fun _ => .ok { url := "http://peer" })
        { name := "peer", agentCardSource := "cards/peer.json" } =
      .error "failed to unmarshal an agent card: json: Unmarshal(nil *a2a.AgentCard)" :=
  C9_file_card_resolution_always_fails.1 (fun _ => .ok [123]) (fun _ => .error "no http")
    (fun _ => .ok { url := "http://peer" })
    { name := "peer", agentCardSource := "cards/peer.json" } [123] rfl (by decide) rfl

/-! ## Server role: Executor / EventProcessor (server/adka2a) -/

/-- The slice of `a2asrv.RequestContext` the executor reads. -/
structure RequestContext where
  taskID : String := ""
  contextID : String := ""
  storedTask : Bool := false
deriving Repr, DecidableEq

/-- `invocationMeta` (server/adka2a/metadata.go). -/
structure InvocationMeta where
  userID : String := ""
  sessionID : String := ""
  eventMeta : List (String × JVal) := []
deriving Repr, DecidableEq

/-- `toInvocationMeta` (server/adka2a/metadata.go). -/
def toInvocationMeta (appName : String) (reqCtx : RequestContext) : InvocationMeta :=
  let userID := "A2A_USER_" ++ reqCtx.contextID
  let sessionID := reqCtx.contextID
  { userID := userID, sessionID := sessionID,
    eventMeta := [(toMetaKey "app_name", .str appName), (toMetaKey "user_id", .str userID),
      (toMetaKey "session_id", .str sessionID)] }

/-- Add one of the `invocation_id`/`author`/`branch` entries when the
value is non-empty (the loop in `toEventMeta`). -/
def addMetaIf (m : List (String × JVal)) (key : String) (val : String) :
    List (String × JVal) :=
  if val ≠ "" then mapSet m (toMetaKey key) (.str val) else m

/-- `toEventMeta` (server/adka2a/metadata.go): invocation metadata plus
per-event entries; fails only when the grounding metadata cannot be
marshalled. -/
def toEventMeta (meta : InvocationMeta) (event : SessionEvent) :
    Except String (List (String × JVal)) :=
  let result := meta.eventMeta
  let result := addMetaIf result "invocation_id" event.invocationID
  let result := addMetaIf result "author" event.author
  let result := addMetaIf result "branch" event.branch
  let result := if event.errorCode ≠ "" then
      mapSet result (toMetaKey "error_code") (.str event.errorCode)
    else result
  match event.groundingMetadata with
  | none => .ok result
  | some gm =>
      if marshalableJFields gm then
        .ok (mapSet result (toMetaKey "grounding_metadata") (.obj gm))
      else .error "json: unsupported value"

/-- `a2a.NewStatusUpdateEvent`: task/context IDs from the provider, the
given state and message, `Final` false. -/
def newStatusUpdateEvent (reqCtx : RequestContext) (state : TaskState)
    (msg : Option A2AMessage) : A2AStatusUpdate :=
  { taskID := reqCtx.taskID, contextID := reqCtx.contextID,
    status := { state := state, message := msg } }

/-- `a2a.NewArtifactEvent`: allocate a new artifact (the library mints a
fresh unique ID, passed in here explicitly) with `Append` false. -/
def newArtifactEvent (reqCtx : RequestContext) (id : String) (parts : List A2APart) :
    A2AArtifactUpdate :=
  { taskID := reqCtx.taskID, contextID := reqCtx.contextID,
    artifact := { id := id, parts := parts }, append := false, lastChunk := false }

/-- `a2a.NewArtifactUpdateEvent`: append to an existing artifact
(`Append` true). -/
def newArtifactUpdateEvent (reqCtx : RequestContext) (id : String)
    (parts : List A2APart) : A2AArtifactUpdate :=
  { taskID := reqCtx.taskID, contextID := reqCtx.contextID,
    artifact := { id := id, parts := parts }, append := true, lastChunk := false }

/-- `a2a.NewMessageForTask`. -/
def newMessageForTask (role : String) (reqCtx : RequestContext)
    (parts : List A2APart) : A2AMessage :=
  { role := role, parts := parts, taskID := reqCtx.taskID, contextID := reqCtx.contextID }

/-- Lookup in the processor's terminal-event map. -/
def tsLookup : List (TaskState × A2AStatusUpdate) → TaskState → Option A2AStatusUpdate
  | [], _ => none
  | (k, v) :: rest, key => if k = key then some v else tsLookup rest key

/-- Insert-or-replace in the processor's terminal-event map (Go map
assignment). -/
def tsInsert : List (TaskState × A2AStatusUpdate) → TaskState → A2AStatusUpdate →
    List (TaskState × A2AStatusUpdate)
  | [], k, v => [(k, v)]
  | (k1, v1) :: rest, k, v =>
      if k1 = k then (k, v) :: rest else (k1, v1) :: tsInsert rest k v

/-- `eventProcessor` (server/adka2a/processor.go).  `freshID` stands for
the unique artifact ID the a2a library mints on the first
`NewArtifactEvent` of this run. -/
structure EventProcessor where
  reqCtx : RequestContext
  meta : InvocationMeta
  freshID : String := "artifact-1"
  responseID : String := ""
  terminalEvents : List (TaskState × A2AStatusUpdate) := []
deriving Repr, DecidableEq

/-- `errorFromResponse`: `fmt.Errorf("llm error response: %q", ...)`. -/
def errorFromResponse (event : SessionEvent) : String :=
  "llm error response: \"" ++ event.errorMessage ++ "\""

/-- `toTaskFailedUpdateEvent` (processor.go). -/
def toTaskFailedUpdateEvent (reqCtx : RequestContext) (cause : String)
    (meta : List (String × JVal)) : A2AStatusUpdate :=
  let msg := newMessageForTask "agent" reqCtx [.text cause []]
  let ev := newStatusUpdateEvent reqCtx .failed (some msg)
  let ev := { ev with metadata := meta }
  { ev with final := true }

/-- `isInputRequired` (processor.go): some part is a function call whose
ID is in the event's long-running tool ID list. -/
def isInputRequired (event : SessionEvent) (parts : List GenAIPart) : Bool :=
  parts.any fun p =>
    match p.functionCall with
    | some call => event.longRunningToolIDs.contains call.id
    | none => false

/-- `eventProcessor.process` (processor.go lines 53-98).  Note line 78 of
the source: the input-required terminal event is stored under the FAILED
key of the terminal-event map, overwriting a previously recorded Failed
event. -/
def processOne (p : EventProcessor) (event : Option SessionEvent) :
    Except String (EventProcessor × Option A2AArtifactUpdate) :=
  match event with
  | none => .ok (p, none)
  | some event =>
      match toEventMeta p.meta event with
      | .error e => .error e
      | .ok eventMeta =>
          let failedEv := toTaskFailedUpdateEvent p.reqCtx (errorFromResponse event) eventMeta
          let p := if event.errorCode ≠ "" then
              if (tsLookup p.terminalEvents .failed).isSome then p
              else { p with terminalEvents := tsInsert p.terminalEvents .failed failedEv }
            else p
          match event.content with
          | none => .ok (p, none)
          | some c =>
              if c.parts.length = 0 then .ok (p, none)
              else
                let p := if isInputRequired event c.parts then
                    let ev := { newStatusUpdateEvent p.reqCtx .inputRequired none with final := true }
                    { p with terminalEvents := tsInsert p.terminalEvents .failed ev }
                  else p
                match toA2AParts c.parts event.longRunningToolIDs with
                | .error e => .error e
                | .ok parts =>
                    if p.responseID = "" then
                      let result := newArtifactEvent p.reqCtx p.freshID parts
                      let result := if eventMeta.length > 0 then
                          { result with metadata := eventMeta }
                        else result
                      .ok ({ p with responseID := result.artifact.id }, some result)
                    else
                      let result := newArtifactUpdateEvent p.reqCtx p.responseID parts
                      let result := if eventMeta.length > 0 then
                          { result with metadata := eventMeta }
                        else result
                      .ok (p, some result)

/-- `eventProcessor.makeTerminalEvents` (processor.go lines 100-121):
close the artifact stream if one was opened, then emit the single
highest-priority terminal event (the map is probed for Failed, then
InputRequired; otherwise Completed). -/
def makeTerminalEvents (p : EventProcessor) : List A2AEvent :=
  let result := if p.responseID ≠ "" then
      [A2AEvent.artifactUpdate
        { newArtifactUpdateEvent p.reqCtx p.responseID [] with lastChunk := true }]
    else []
  match tsLookup p.terminalEvents .failed with
  | some ev => result ++ [.statusUpdate ev]
  | none =>
      match tsLookup p.terminalEvents .inputRequired with
      | some ev => result ++ [.statusUpdate ev]
      | none =>
          let ev := newStatusUpdateEvent p.reqCtx .completed none
          let ev := { ev with metadata := p.meta.eventMeta }
          result ++ [.statusUpdate { ev with final := true }]

/-- `eventProcessor.makeTaskFailedEvent` (processor.go lines 123-133). -/
def makeTaskFailedEvent (p : EventProcessor) (cause : String)
    (event : Option SessionEvent) : A2AStatusUpdate :=
  let meta := match event with
    | none => p.meta.eventMeta
    | some e =>
        match toEventMeta p.meta e with
        | .error _ => p.meta.eventMeta
        | .ok m => m
  toTaskFailedUpdateEvent p.reqCtx cause meta

/-- `Executor.process` (executor.go lines 112-146): drive the local run
through the processor, emit artifact updates as they appear, convert the
first failure into a single Failed terminal and stop, and emit the
terminal events after normal exhaustion.  (Queue writes are modelled as
always succeeding; a sink failure aborts with an infrastructural error
instead of emitting anything, which no claim here exercises.) -/
def processRun (p : EventProcessor) : List (Except String SessionEvent) → List A2AEvent
  | [] => makeTerminalEvents p
  | .error e :: _ =>
      [.statusUpdate (makeTaskFailedEvent p ("agent run failed: " ++ e) none)]
  | .ok event :: rest =>
      match processOne p (some event) with
      | .error e =>
          [.statusUpdate (makeTaskFailedEvent p ("processor failed: " ++ e) (some event))]
      | .ok (p2, none) => processRun p2 rest
      | .ok (p2, some a2aEv) => .artifactUpdate a2aEv :: processRun p2 rest

/-- `Executor.Execute` (executor.go lines 58-101), from the point where
the message and runner exist and the session is prepared: emit Submitted
when no task is stored yet, emit Working, then run the processor loop.
`run` is the ordered local event sequence the black-box runner yields. -/
def executeWireEvents (appName : String) (reqCtx : RequestContext) (freshID : String)
    (run : List (Except String SessionEvent)) : List A2AEvent :=
  let submittedPrefix := if reqCtx.storedTask then []
    else [A2AEvent.statusUpdate (newStatusUpdateEvent reqCtx .submitted none)]
  let invocationMeta := toInvocationMeta appName reqCtx
  let working := { newStatusUpdateEvent reqCtx .working none with metadata := invocationMeta.eventMeta }
  let processor : EventProcessor := { reqCtx := reqCtx, meta := invocationMeta, freshID := freshID }
  submittedPrefix ++ A2AEvent.statusUpdate working :: processRun processor run

/-! ## Claims C1 and C4: the server-role lifecycle -/

/-- The terminal state an emitted wire event carries, if it is a final
status update. -/
def terminalStateOf : A2AEvent → Option TaskState
  | .statusUpdate e => if e.final then some e.status.state else none
  | _ => none

/-- A request context for the concrete runs. -/
def c1Req : RequestContext := { taskID := "t", contextID := "c" }

/-- An error-coded local event (no content). -/
def c1ErrEvent : SessionEvent := { errorCode := "500", errorMessage := "boom" }

/-- Content holding one long-running function call. -/
def irContent : Content :=
  { role := "model", parts := [{ functionCall := some { id := "x", args := [], name := "tool" } }] }

/-- A later local event qualifying as InputRequired (its function call ID
is in its long-running tool ID list). -/
def c1IREvent : SessionEvent := { content := some irContent, longRunningToolIDs := ["x"] }

/-- C1 (code bug): on the run [error event] alone the single terminal is
Failed, but on [error event, later InputRequired-qualifying event] the
single emitted terminal event has state InputRequired — the later
input-required event overwrote the locked-in Failed entry (processor.go
line 78 stores it under the Failed key), contradicting the fixed
Failed > InputRequired priority the code's own comments document. -/
theorem C1_error_then_input_required_eval :
    (executeWireEvents "app" c1Req "artifact-1" [.ok c1ErrEvent]).filterMap terminalStateOf =
      [.failed] ∧
    (executeWireEvents "app" c1Req "artifact-1"
      [.ok c1ErrEvent, .ok c1IREvent]).filterMap terminalStateOf = [.inputRequired] ∧
    TaskState.inputRequired ≠ TaskState.failed := by
  refine ⟨by rfl, by rfl, by decide⟩

theorem mapSet_ne_nil (m : List (String × JVal)) (k : String) (v : JVal) :
    mapSet m k v ≠ [] := by
  cases m with
  | nil => simp [mapSet]
  | cons hd tl =>
      obtain ⟨k1, v1⟩ := hd
      simp only [mapSet]
      split <;> simp

theorem addMetaIf_ne_nil (m : List (String × JVal)) (k v : String) (h : m ≠ []) :
    addMetaIf m k v ≠ [] := by
  unfold addMetaIf
  split
  · exact mapSet_ne_nil _ _ _
  · exact h

theorem toEventMeta_ne_nil (meta : InvocationMeta) (event : SessionEvent)
    (m : List (String × JVal)) (h : toEventMeta meta event = .ok m)
    (hne : meta.eventMeta ≠ []) : m ≠ [] := by
  have hbase : addMetaIf (addMetaIf (addMetaIf meta.eventMeta "invocation_id"
      event.invocationID) "author" event.author) "branch" event.branch ≠ [] :=
    addMetaIf_ne_nil _ _ _ (addMetaIf_ne_nil _ _ _ (addMetaIf_ne_nil _ _ _ hne))
  simp only [toEventMeta] at h
  cases hg : event.groundingMetadata with
  | none =>
      rw [hg] at h
      dsimp only at h
      injection h with h
      subst h
      split
      · exact mapSet_ne_nil _ _ _
      · exact hbase
  | some gm =>
      rw [hg] at h
      dsimp only at h
      split at h
      · injection h with h
        subst h
        exact mapSet_ne_nil _ _ _
      · cases h

theorem processOne_plain (p : EventProcessor) (e : SessionEvent) (c : Content)
    (parts : List A2APart) (meta : List (String × JVal))
    (he : e.errorCode = "") (hc : e.content = some c) (hp : 0 < c.parts.length)
    (hir : isInputRequired e c.parts = false)
    (hm : toEventMeta p.meta e = .ok meta)
    (henc : toA2AParts c.parts e.longRunningToolIDs = .ok parts)
    (hmpos : 0 < meta.length) :
    processOne p (some e) = .ok (
      if p.responseID = "" then
        ({ p with responseID := p.freshID },
          some { newArtifactEvent p.reqCtx p.freshID parts with metadata := meta })
      else
        (p, some { newArtifactUpdateEvent p.reqCtx p.responseID parts with metadata := meta })) := by
  simp only [processOne, hm, he, hc, hir, henc]
  simp only [ne_eq, not_true_eq_false, if_false, reduceIte]
  rw [if_neg (by omega)]
  by_cases hresp : p.responseID = "" <;>
    simp [hresp, hmpos, newArtifactEvent, newArtifactUpdateEvent, Nat.pos_iff_ne_zero]

/-- Whether a wire event is a task artifact update. -/
def isArtifactEvent : A2AEvent → Bool
  | .artifactUpdate _ => true
  | _ => false

/-- A plain text-content local event. -/
def c4TextEvent : SessionEvent :=
  { content := some { role := "model", parts := [{ text := "one" }] } }

/-- C4 counterexample: a run with exactly two non-empty-content,
error-free events that ends normally, whose second event carries a
long-running function call — the single final status update is
InputRequired, not the Completed the claim promises. -/
theorem C4_counterexample_long_running_call :
    c4TextEvent.errorCode = "" ∧ c1IREvent.errorCode = "" ∧
    (c4TextEvent.content.map (fun c => c.parts.length) = some 1) ∧
    (c1IREvent.content.map (fun c => c.parts.length) = some 1) ∧
    (executeWireEvents "app" c1Req "artifact-1"
      [.ok c4TextEvent, .ok c1IREvent]).filterMap terminalStateOf = [.inputRequired] ∧
    TaskState.inputRequired ≠ TaskState.completed := by
  refine ⟨rfl, rfl, rfl, rfl, by rfl, by decide⟩

/-- C4 (amended): for every server-role execution whose local run yields
exactly two events with non-empty content, no error code, no
input-required-qualifying long-running call, cleanly convertible
metadata and cleanly encodable parts, and then ends normally, the wire
events after the optional Submitted event are, in order: Working, an
artifact update allocating a new artifact (append=false), an artifact
update appending to that same artifact (append=true), an empty artifact
update for the same artifact with lastChunk=true, and exactly one final
Completed status update; moreover a processor that sent no artifact
update emits no artifact-closing event at all. -/
theorem C4_two_content_events_sequence
    (appName : String) (reqCtx : RequestContext) (freshID : String)
    (e1 e2 : SessionEvent) (c1 c2 : Content) (parts1 parts2 : List A2APart)
    (meta1 meta2 : List (String × JVal))
    (hfid : freshID ≠ "")
    (he1 : e1.errorCode = "") (he2 : e2.errorCode = "")
    (hc1 : e1.content = some c1) (hc2 : e2.content = some c2)
    (hp1 : 0 < c1.parts.length) (hp2 : 0 < c2.parts.length)
    (hir1 : isInputRequired e1 c1.parts = false)
    (hir2 : isInputRequired e2 c2.parts = false)
    (hm1 : toEventMeta (toInvocationMeta appName reqCtx) e1 = .ok meta1)
    (hm2 : toEventMeta (toInvocationMeta appName reqCtx) e2 = .ok meta2)
    (henc1 : toA2AParts c1.parts e1.longRunningToolIDs = .ok parts1)
    (henc2 : toA2AParts c2.parts e2.longRunningToolIDs = .ok parts2) :
    executeWireEvents appName reqCtx freshID [.ok e1, .ok e2] =
      (if reqCtx.storedTask then []
        else [A2AEvent.statusUpdate (newStatusUpdateEvent reqCtx .submitted none)]) ++
      [A2AEvent.statusUpdate { newStatusUpdateEvent reqCtx .working none with metadata := (toInvocationMeta appName reqCtx).eventMeta },
       A2AEvent.artifactUpdate { newArtifactEvent reqCtx freshID parts1 with metadata := meta1 },
       A2AEvent.artifactUpdate { newArtifactUpdateEvent reqCtx freshID parts2 with metadata := meta2 },
       A2AEvent.artifactUpdate { newArtifactUpdateEvent reqCtx freshID [] with lastChunk := true },
       A2AEvent.statusUpdate { newStatusUpdateEvent reqCtx .completed none with metadata := (toInvocationMeta appName reqCtx).eventMeta, final := true }] ∧
    (∀ p : EventProcessor, p.responseID = "" →
      ∀ ev ∈ makeTerminalEvents p, isArtifactEvent ev = false) := by
  constructor
  · have hneml : (toInvocationMeta appName reqCtx).eventMeta ≠ [] := by
      simp [toInvocationMeta]
    have hm1pos : 0 < meta1.length :=
      List.length_pos.mpr (toEventMeta_ne_nil _ _ _ hm1 hneml)
    have hm2pos : 0 < meta2.length :=
      List.length_pos.mpr (toEventMeta_ne_nil _ _ _ hm2 hneml)
    simp only [executeWireEvents, processRun]
    rw [processOne_plain _ e1 c1 parts1 meta1 he1 hc1 hp1 hir1 hm1 henc1 hm1pos]
    dsimp only
    rw [if_pos rfl]
    dsimp only
    rw [processOne_plain _ e2 c2 parts2 meta2 he2 hc2 hp2 hir2 hm2 henc2 hm2pos]
    dsimp only
    rw [if_neg hfid]
    dsimp only [processRun]
    simp [makeTerminalEvents, hfid, tsLookup]
  · intro p hresp ev hev
    simp only [makeTerminalEvents, hresp] at hev
    rw [if_neg (by simp)] at hev
    cases h1 : tsLookup p.terminalEvents .failed with
    | some e =>
        rw [h1] at hev
        simp only [List.nil_append, List.mem_singleton] at hev
        subst hev
        rfl
    | none =>
        rw [h1] at hev
        cases h2 : tsLookup p.terminalEvents .inputRequired with
        | some e =>
            rw [h2] at hev
            simp only [List.nil_append, List.mem_singleton] at hev
            subst hev
            rfl
        | none =>
            rw [h2] at hev
            simp only [List.nil_append, List.mem_singleton] at hev
            subst hev
            rfl

/-- A second plain text-content local event. -/
def c4TextEvent2 : SessionEvent :=
  { content := some { role := "model", parts := [{ text := "two" }] } }

/-- The event metadata all events of the witness run carry. -/
def c4Meta : List (String × JVal) :=
  [(toMetaKey "app_name", .str "app"), (toMetaKey "user_id", .str "A2A_USER_c"),
   (toMetaKey "session_id", .str "c")]

/-- Witness for the amended C4: the concrete two-text-event run emits
Submitted, Working, allocate (append=false), append (append=true), empty
lastChunk update, Completed(final). -/
theorem C4_two_content_events_sequence_witness :
    executeWireEvents "app" c1Req "artifact-1" [.ok c4TextEvent, .ok c4TextEvent2] =
      [A2AEvent.statusUpdate (newStatusUpdateEvent c1Req .submitted none),
       A2AEvent.statusUpdate { newStatusUpdateEvent c1Req .working none with metadata := c4Meta },
       A2AEvent.artifactUpdate { newArtifactEvent c1Req "artifact-1" [.text "one" []] with metadata := c4Meta },
       A2AEvent.artifactUpdate { newArtifactUpdateEvent c1Req "artifact-1" [.text "two" []] with metadata := c4Meta },
       A2AEvent.artifactUpdate { newArtifactUpdateEvent c1Req "artifact-1" [] with lastChunk := true },
       A2AEvent.statusUpdate { newStatusUpdateEvent c1Req .completed none with metadata := c4Meta, final := true }] := by
  have h := (C4_two_content_events_sequence "app" c1Req "artifact-1" c4TextEvent c4TextEvent2
    { role := "model", parts := [{ text := "one" }] }
    { role := "model", parts := [{ text := "two" }] }
    [.text "one" []] [.text "two" []] c4Meta c4Meta
    (by decide) rfl rfl rfl rfl (by decide) (by decide) rfl rfl rfl rfl rfl rfl).1
  exact h.trans (by rfl)
